import Mathlib

/-!
Verification development for the binding descriptor generator of
bevy_api_gen (files src/bevy_api_gen/src/lib.rs and
src/bevy_api_gen/src/wrapper.rs).  The generator consumes rustdoc type
graphs plus an ordered binding configuration and emits one textual
artifact of per-type descriptor blocks followed by global registration
scaffolding.

The modules arg_validator, config, cratepath and writer are not part of
the provided sources; the definitions embedding them are modelled from
the specification and are marked as such in their doc comments.  All
other definitions are direct translations of the Rust source.  Output
is modelled as a String (the concatenation of all write calls, in
order); process panics are modelled with an explicit error channel.
-/

/-- Modelled from the spec: a raw type expression of the rustdoc type
graph (the external rustdoc_types::Type input of the missing
arg_validator module).  selfTy denotes the declaring type itself,
named a resolved path or primitive name, genericParam an unbound type
parameter of the surrounding declaration, borrowedRef a reference with
its mutability, and complex any type expression that is not a simple
type (tuples, slices, function pointers, ...), carrying a description
used in failure messages. -/
inductive RType where
  | selfTy : RType
  | named : String → RType
  | genericParam : String → RType
  | borrowedRef : Bool → RType → RType
  | complex : String → RType
deriving Repr, DecidableEq

/-- Modelled from the spec: the closed classification taxonomy ArgType
of the missing arg_validator module, with variants Primitive(name),
SelfType, Reference, Wrapped(name), Generic(name) and Unsupported. -/
inductive ArgType where
  | selfType : ArgType
  | primitive : String → ArgType
  | wrapped : String → ArgType
  | generic : String → ArgType
  | unsupported : String → ArgType
  | ref : Bool → ArgType → ArgType
deriving Repr, DecidableEq

/-- Modelled from the spec: the wrapper strategy of the missing
arg_validator module, one of None, Raw, Wrapped. -/
inductive ArgWrapperType where
  | noneW : ArgWrapperType
  | raw : ArgWrapperType
  | wrapped : ArgWrapperType
deriving Repr, DecidableEq

/-- Modelled from the spec: the per-type section of the binding
configuration (the missing config module).  Field names follow the
source where it uses them: type name, declaring module name
(config.source.0), import path override, accepted interface names
with their import paths, derive flag blocks, manual method texts and
the doc override. -/
structure TraitMethods where
  name : String
  import_path : String
deriving Repr, DecidableEq

/-- Modelled from the spec: one TypeConfig entry (called Newtype in the
source) of the binding configuration. -/
structure Newtype where
  type_ : String
  source : String
  import_path : String
  traits : List TraitMethods
  derive_flags : List String
  lua_methods : List String
  doc : Option String
deriving Repr, DecidableEq

/-- Modelled from the spec: the manually declared external wrapped
types of the configuration, with their optional global-instance
registration. -/
structure ManualLuaType where
  name : String
  proxy_name : String
  include_global_proxy : Bool
  use_dummy_proxy : Bool
  dont_process : Bool
deriving Repr, DecidableEq

/-- Modelled from the spec: the whole binding configuration (the
missing config module).  types is the ordered mapping from target type
name to its TypeConfig (an IndexMap in the source, so insertion order
is the declaration order); primitives is the global primitive-type
name set. -/
structure Config where
  types : List (String × Newtype)
  primitives : List String
  imports : String
  other : String
  api_name : String
  lua_api_defaults : String
  manual_lua_types : List ManualLuaType
  required_features : List String
  output_file : String
deriving Repr, DecidableEq

/-- The CLI arguments; only the diagnostics toggle print_errors is
consumed by the core generator. -/
structure Args where
  print_errors : Bool
deriving Repr, DecidableEq

/-- Whether a configured type name is a key of the ordered type table
(IndexMap::contains_key). -/
def Config.containsTypeKey (cfg : Config) (s : String) : Bool :=
  cfg.types.any (fun p => p.1 == s)

/-- Modelled from the spec: the classifier of the missing
arg_validator module (TryFrom of a raw type expression into ArgType).
Rules in priority order: a type denoting the declaring type itself
gives SelfType; a reference classifies its inner type recursively,
preserving mutability; a name present in the primitive table gives
Primitive; an unbound type parameter gives Generic; a name present in
the wrapped-type table gives Wrapped; any other name gives
Unsupported; a non-simple type expression is a classification failure
carrying a diagnostic message. -/
def classify (cfg : Config) : RType → Except String ArgType
  | RType.selfTy => Except.ok ArgType.selfType
  | RType.borrowedRef m inner => (classify cfg inner).map (ArgType.ref m)
  | RType.genericParam s => Except.ok (ArgType.generic s)
  | RType.named s =>
      if cfg.primitives.contains s then Except.ok (ArgType.primitive s)
      else if cfg.containsTypeKey s then Except.ok (ArgType.wrapped s)
      else Except.ok (ArgType.unsupported s)
  | RType.complex d => Except.error ((("Not a simple type: ") ++ d))

/-- Modelled from the spec: whether the classified type denotes the
declaring type itself, looking through references. -/
def ArgType.is_self : ArgType → Bool
  | ArgType.selfType => true
  | ArgType.ref _ inner => inner.is_self
  | _ => false

/-- Modelled from the spec: the base identifier of a classified type
(the underlying name, looking through references).  SelfType carries
no name.  The spec lists Unsupported without further payload, but the
in-source field selector of wrapper.rs resolves wrapper strategies
through base_ident table lookups, so the unresolved name is kept
visible here; classification has already established that this name
lies in neither configuration table. -/
def ArgType.base_ident : ArgType → Option String
  | ArgType.primitive n => some n
  | ArgType.wrapped n => some n
  | ArgType.generic n => some n
  | ArgType.ref _ inner => inner.base_ident
  | ArgType.selfType => none
  | ArgType.unsupported n => some n

/-- Modelled from the spec: the textual display of a classified type
used in diagnostics and rendered signatures. -/
def ArgType.display : ArgType → String
  | ArgType.selfType => "self"
  | ArgType.primitive n => n
  | ArgType.wrapped n => n
  | ArgType.generic n => n
  | ArgType.unsupported n => n
  | ArgType.ref m inner => (if m then "&mut " else "&") ++ inner.display

/-- Modelled from the spec: ArgWrapperType::with_config.  The receiver
type gets the None strategy (never wrapped); a base identifier in the
primitive table gets Raw; one in the wrapped-type table gets Wrapped;
otherwise no wrapper strategy exists.  The in-source field selector of
wrapper.rs spells out exactly this chain (is_self, then the primitive
table, then the type table).  An Unsupported type carries a name that
classification established to lie in neither table, so both membership
tests fail for it. -/
def ArgWrapperType.with_config (self_name : String) (at_ : ArgType) (cfg : Config) :
    Option ArgWrapperType :=
  if at_.is_self then some ArgWrapperType.noneW
  else
    match at_.base_ident with
    | some b =>
        if cfg.primitives.contains b then some ArgWrapperType.raw
        else if cfg.containsTypeKey b then some ArgWrapperType.wrapped
        else none
    | none => none

/-- Modelled from the spec: the rendering of one argument (Arg::new
plus Display), pairing a classified type with its wrapper strategy:
the receiver renders bare, a Raw strategy renders inside Raw(..), a
Wrapped strategy inside Wrapped(..). -/
def argDisplay (at_ : ArgType) (w : ArgWrapperType) : String :=
  match w with
  | ArgWrapperType.noneW => at_.display
  | ArgWrapperType.raw => ("Raw(") ++ at_.display ++ (")")
  | ArgWrapperType.wrapped => ("Wrapped(") ++ at_.display ++ (")")

/-- Character-level starts_with check (the source strings are ASCII,
so Rust byte positions and characters coincide). -/
def strStarts (s p : String) : Bool := p.data.isPrefixOf s.data

/-- Character-level length (Rust len over ASCII strings). -/
def strLen (s : String) : Nat := s.data.length

/-- Character-level drop (the Rust byte slice from index n over ASCII
strings). -/
def strDrop (s : String) (n : Nat) : String := String.mk (s.data.drop n)

/-- Concatenation of a list of strings. -/
def strJoin : List String → String
  | [] => ""
  | s :: rest => s ++ strJoin rest

/-- The list joined with a separator between consecutive elements
(the join of the Rust source). -/
def joinSep (sep : String) : List String → String
  | [] => ""
  | [s] => s
  | s :: rest => s ++ sep ++ joinSep sep rest

/-- Translation of write_use_items_from_path (lib.rs).  Emits one use
item: the import-path override verbatim when present; otherwise the
module name, rewritten to the bevy umbrella alias when it starts with
the four characters bevy and is longer than five characters, followed
by the remaining path components. -/
def write_use_items_from_path (module_name : String) (path_components : List String)
    (import_path : String) : String :=
  ("use ") ++
  (if import_path ≠ "" then import_path
   else
     (if strStarts module_name ("bevy") && decide (5 < strLen module_name)
      then ("bevy::") ++ (strDrop module_name 5)
      else module_name)
     ++ strJoin (path_components.map (fun item => ("::") ++ item)))
  ++ (";\n")

/-- A process-abort (panic) or the batch-reported fatal error of the
generator.  missingTypes carries every configured type name that no
item of the supplied type graphs matched, reported together. -/
inductive GenError where
  | missingTypes (names : List String) : GenError
  | panicMsg (msg : String) : GenError
deriving Repr, DecidableEq

/-- The declaration of a function item of the type graph: named inputs
with their raw types, and the optional declared output type
(rustdoc_types::FnDecl, external input schema). -/
structure FnDecl where
  inputs : List (String × RType)
  output : Option RType
deriving Repr, DecidableEq

/-- Generic parameters declared on an item of the type graph. -/
structure ItemGenerics where
  params : List String
deriving Repr, DecidableEq

/-- An implementation block of the type graph: the optional name of
the implemented interface, the implemented-for type, and the member
item ids (rustdoc_types::Impl; only the fields the source reads). -/
structure ImplData where
  trait_ : Option String
  for_ : RType
  items : List Nat
deriving Repr, DecidableEq

/-- The kind of a record type: plain with visible field ids, or
tuple/unit (rustdoc_types::StructKind). -/
inductive StructKind where
  | plain (fields : List Nat) : StructKind
  | tupleKind : StructKind
  | unitKind : StructKind
deriving Repr, DecidableEq

/-- A record type of the type graph with its implementation block ids. -/
structure StructData where
  kind : StructKind
  impls : List Nat
deriving Repr, DecidableEq

/-- A tagged-union type of the type graph with its implementation
block ids. -/
structure EnumData where
  impls : List Nat
deriving Repr, DecidableEq

/-- The kind-specific payload of an item (rustdoc_types::ItemEnum;
only the variants the source inspects). -/
inductive ItemInner where
  | function (decl : FnDecl) (generics : ItemGenerics) : ItemInner
  | structItem (s : StructData) : ItemInner
  | enumItem (e : EnumData) : ItemInner
  | implItem (i : ImplData) : ItemInner
  | structField (type_ : RType) : ItemInner
  | assocTypeItem (defaultTy : Option RType) : ItemInner
  | otherItem : ItemInner
deriving Repr, DecidableEq

/-- One item of the type graph: opaque id, optional name, doc comment,
attributes and kind-specific payload. -/
structure Item where
  id : Nat
  name : Option String
  docs : Option String
  attrs : List String
  inner : ItemInner
deriving Repr, DecidableEq

/-- One supplied type graph (rustdoc_types::Crate): the id-indexed
item table and the parallel id-to-path table.  The source stores the
index in a hash map with no reliable iteration order; it is modelled
as an association list whose order stands for one arbitrary iteration
order. -/
structure Crate where
  index : List (Nat × Item)
  paths : List (Nat × List String)
deriving Repr, DecidableEq

/-- Lookup of an item by id in an index (HashMap::get). -/
def indexGet (index : List (Nat × Item)) (id : Nat) : Option Item :=
  (index.find? (fun p => p.1 == id)).map (fun p => p.2)

/-- Modelled from the spec: get_path of the missing cratepath module.
Path information is resolved from the id-to-path table of the owning
graph. -/
def get_path (id : Nat) (source : Crate) : Option (List String) :=
  (source.paths.find? (fun p => p.1 == id)).map (fun p => p.2)

/-- Modelled from the spec: path_to_import of the missing cratepath
module turns the raw path segments into an import-ready sequence; the
umbrella-alias rewrite of the naming convention is applied later by
write_use_items_from_path, so the segments pass through here. -/
def path_to_import (path : List String) (_source : Crate) : List String := path

/-- Insertion into the name-indexed multi-map of members (IndexMap
entry().or_default().push(): insertion order of keys is preserved and
a new pair is appended at the end of its key sequence). -/
def insertMulti (m : List (String × List (ImplData × Item))) (k : String)
    (v : ImplData × Item) : List (String × List (ImplData × Item)) :=
  match m with
  | [] => [(k, [v])]
  | (k2, vs) :: rest =>
      if k2 == k then (k2, vs ++ [v]) :: rest else (k2, vs) :: insertMulti rest k v

/-- Insertion into an insertion-ordered set (IndexSet::insert). -/
def insertSet (s : List String) (x : String) : List String :=
  if s.contains x then s else s ++ [x]

/-- Split a character list at newline characters. -/
def splitNl : List Char → List (List Char)
  | [] => [[]]
  | c :: cs =>
      if c = '\n' then [] :: splitNl cs
      else
        match splitNl cs with
        | [] => [[c]]
        | l :: ls => (c :: l) :: ls

/-- The lines of a string as Rust str::lines produces them: split at
newlines, with no trailing empty line for a trailing newline and no
line at all for the empty string. -/
def rustLines (s : String) : List String :=
  let ps := splitNl s.data
  let ps := if ps.getLast? = some [] then ps.dropLast else ps
  ps.map String.mk

/-- The derived per-target-type state (wrapper.rs WrappedItem): the
wrapper name (prefix plus type name), the matched item, the owning
graph index, the member multi-map, the implemented-interface set and
the has-global-methods flag filled in during method selection. -/
structure WrappedItem where
  wrapper_name : String
  wrapped_type : String
  path_components : List String
  config : Newtype
  item : Item
  index : List (Nat × Item)
  self_impl : Option ImplData
  impl_items : List (String × List (ImplData × Item))
  implemented_traits : List String
  has_global_methods : Bool
deriving Repr, DecidableEq

/-- Accumulator of the member collector: the type's own
implementation, the member multi-map and the implemented-interface
set. -/
structure ImplAcc where
  self_impl : Option ImplData
  impl_items : List (String × List (ImplData × Item))
  implemented_traits : List String
deriving Repr, DecidableEq

/-- One step of the member collector (lib.rs, the impls loop of
generate_macros): resolve one implementation-block id; a non-impl item
is the process-fatal internal-consistency panic of the source; a named
interface joins the implemented-interface set, an unnamed block
becomes the type's own implementation (last one wins); every member is
resolved and appended to the multi-map under its name. -/
def implStep (index : List (Nat × Item)) (acc : ImplAcc) (id : Nat) :
    Except GenError ImplAcc :=
  match indexGet index id with
  | some it =>
      match it.inner with
      | ItemInner.implItem i =>
          let acc1 :=
            match i.trait_ with
            | some t => { acc with implemented_traits := insertSet acc.implemented_traits t }
            | none => { acc with self_impl := some i }
          i.items.foldlM
            (fun a mid =>
              match indexGet index mid with
              | some mem =>
                  match mem.name with
                  | some nm =>
                      Except.ok { a with impl_items := insertMulti a.impl_items nm (i, mem) }
                  | none => Except.error (GenError.panicMsg ("member item without a name"))
              | none => Except.error (GenError.panicMsg ("member id not found in the index")))
            acc1
      | _ => Except.error (GenError.panicMsg ("Expected impl items here!"))
  | none => Except.error (GenError.panicMsg ("impl id not found in the index"))

/-- Building one WrappedItem for a matched target item (lib.rs,
generate_macros): only records and tagged unions are allowed; the
member collector runs over the declared implementation blocks; path
resolution failure for a matched item is process-fatal. -/
def buildWrappedItem (source : Crate) (nt : Newtype) (item : Item) :
    Except GenError WrappedItem := do
  let impls ←
    match item.inner with
    | ItemInner.structItem s => Except.ok s.impls
    | ItemInner.enumItem e => Except.ok e.impls
    | _ => Except.error (GenError.panicMsg ("Only structs or enums are allowed!"))
  let acc ← impls.foldlM (implStep source.index) ⟨none, [], []⟩
  let nm := item.name.getD ""
  let pc ←
    match get_path item.id source with
    | some p => Except.ok (path_to_import p source)
    | none => Except.error (GenError.panicMsg ("path not found"))
  Except.ok
    { wrapper_name := ("Lua") ++ nm
      wrapped_type := nm
      path_components := pc
      config := nt
      item := item
      index := source.index
      self_impl := acc.self_impl
      impl_items := acc.impl_items
      implemented_traits := acc.implemented_traits
      has_global_methods := false }

/-- Modelled from the spec: Newtype::matches_result of the missing
config module.  A configured entry matches an item of the graph when
the item is one of the bindable kinds, a record or a tagged union (the
spec matches a curated subset of named types; the source immediately
afterwards requires exactly these two kinds on pain of a panic). -/
def matches_result (_nt : Newtype) (item : Item) : Bool :=
  match item.inner with
  | ItemInner.structItem _ => true
  | ItemInner.enumItem _ => true
  | _ => false

/-- The matched (graph, config entry, item) triples, in the iteration
order of the graphs and of each graph's index (lib.rs, the filter of
generate_macros: an item whose name is a configured key and for which
matches_result holds). -/
def collectMatched (cfg : Config) (crates : List Crate) : List (Crate × Newtype × Item) :=
  (crates.map (fun source =>
    source.index.filterMap (fun p =>
      match p.2.name with
      | some nm =>
          match cfg.types.find? (fun q => q.1 == nm) with
          | some q => if matches_result q.2 p.2 then some (source, q.2, p.2) else none
          | none => none
      | none => none))).flatten

/-- All WrappedItems of a run, in graph iteration order (the collect
of generate_macros; building is strict, so a malformed graph panics
here before the unmatched-type check). -/
def buildAllWrapped (crates : List Crate) (cfg : Config) :
    Except GenError (List WrappedItem) :=
  (collectMatched cfg crates).mapM (fun t => buildWrappedItem t.1 t.2.1 t.2.2)

/-- The configured type names that no built item matched, in
configuration order (the unmatched_types set of generate_macros). -/
def unmatchedOf (cfg : Config) (ws : List WrappedItem) : List String :=
  (cfg.types.map (fun p => p.1)).filter (fun k => !(ws.any (fun w => w.wrapped_type == k)))

/-- The per-parameter pass of the method selector (wrapper.rs, the
decl.inputs loop of write_derive_flags_body): renders each parameter,
accumulates one reason per unclassifiable or unwrappable parameter
without stopping, tracks the receiver (a parameter literally named
self that classified and found a wrapper strategy clears the global
flag and is followed by the receiver separator instead of a comma),
and renders an invalid-marker placeholder for a classified parameter
without wrapper strategy.  The index i and the total n drive the
comma placement exactly as the enumerate of the source does. -/
structure ParamsOut where
  text : String
  errors : List String
  is_global : Bool
deriving Repr, DecidableEq

/-- See ParamsOut. -/
def processParams (self_name : String) (cfg : Config) (n : Nat) :
    Nat → List (String × RType) → ParamsOut
  | _, [] => ⟨"", [], true⟩
  | i, (declaration_name, tp) :: rest =>
    let restOut := processParams self_name cfg n (i + 1) rest
    match classify cfg tp with
    | Except.ok at_ =>
        match ArgWrapperType.with_config self_name at_ cfg with
        | some w =>
            let sep :=
              if declaration_name != ("self") && (i + 1) != n then (",")
              else if declaration_name == ("self") then (":")
              else ""
            { text := argDisplay at_ w ++ sep ++ restOut.text
              errors := restOut.errors
              is_global := (declaration_name != ("self")) && restOut.is_global }
        | none =>
            { text := ("<invalid: ") ++ at_.display ++ (">") ++ restOut.text
              errors := (("Unsupported argument ") ++ at_.display ++
                (", not a wrapped type or primitive")) :: restOut.errors
              is_global := restOut.is_global }
    | Except.error e =>
        { text := restOut.text
          errors := (("Unsupported argument, Not a simple type: ") ++ e ++ (".")) :: restOut.errors
          is_global := restOut.is_global }

/-- The docstring of an auto method, re-emitted line by line with a
comment marker (wrapper.rs write_method_docstring; the id is resolved
in the owning index). -/
def methodDocstring (index : List (Nat × Item)) (id : Nat) : String :=
  match indexGet index id with
  | some it => strJoin ((rustLines (it.docs.getD "")).map (fun l => ("/// ") ++ l ++ ("\n")))
  | none => ""

/-- The outcome of the method selector for one candidate member: the
text appended to the output stream, the accumulated exclusion reasons
at the point the member was left, whether it was included, the
receiver-less flag recorded for the has-global-methods update, and the
member name. -/
structure MethodOutcome where
  out : String
  errors : List String
  included : Bool
  is_global : Bool
  name : String
deriving Repr, DecidableEq

/-- The closing phase of the method selector (wrapper.rs lines after
the return-type handling): a nonempty generics list adds its reason;
with any reason the member is excluded and, when diagnostics are
enabled, rendered as the joined reason line followed by the
comment-prefixed signature and a blank line; with no reason the member
is included and its signature emitted with a trailing separator. -/
def finishMethod (print_errors : Bool) (nm : String) (inner : String)
    (errs : List String) (genericsNonempty : Bool) (isGlobal : Bool) : MethodOutcome :=
  let errs := if genericsNonempty then errs ++ [("Generics on the method")] else errs
  if errs.isEmpty then
    { out := inner ++ (",\n"), errors := errs, included := true,
      is_global := isGlobal, name := nm }
  else
    { out :=
        if print_errors then
          ("// Exclusion reason: ") ++ joinSep (",") errs ++ ("\n") ++
          strJoin ((rustLines inner).map (fun l => ("// ") ++ l ++ ("\n"))) ++ ("\n")
        else "",
      errors := errs, included := false, is_global := isGlobal, name := nm }

/-- The method selector for one candidate member (wrapper.rs, the body
of the impl_items loop of write_derive_flags_body, after the allow
list and function-kind checks).  Parameters are processed first; the
receiver-less flag is recorded before the return type is examined, so
it is recorded even for members excluded later.  A return type that
classifies to a reference leaves the member at once: the accumulated
reasons are discarded, nothing is emitted even with diagnostics
enabled, and the generics rule is never evaluated. -/
def processMethodCore (w : WrappedItem) (cfg : Config) (args : Args)
    (decl : FnDecl) (generics : ItemGenerics) (nm doc : String) : MethodOutcome :=
  let p := processParams w.wrapped_type cfg decl.inputs.length 0 decl.inputs
  let inner1 := doc ++ nm ++ ("(") ++ p.text ++ (")")
  match decl.output with
  | some tp =>
      match classify cfg tp with
      | Except.ok at_ =>
          match at_ with
          | ArgType.ref _ _ =>
              { out := ""
                errors := p.errors ++ [("references are not supported as return types")]
                included := false
                is_global := p.is_global
                name := nm }
          | _ =>
              match ArgWrapperType.with_config w.wrapped_type at_ cfg with
              | some w2 =>
                  finishMethod args.print_errors nm
                    (inner1 ++ (" -> ") ++ argDisplay at_ w2)
                    p.errors (!generics.params.isEmpty) p.is_global
              | none =>
                  finishMethod args.print_errors nm
                    (inner1 ++ ("<invalid: ") ++ at_.display ++ (">"))
                    (p.errors ++
                      [("Unsupported argument, not a wrapped type or primitive ") ++
                        at_.display])
                    (!generics.params.isEmpty) p.is_global
      | Except.error e =>
          finishMethod args.print_errors nm inner1
            (p.errors ++
              [("Unsupported argument, not a simple type: ") ++ e])
            (!generics.params.isEmpty) p.is_global
  | none =>
      finishMethod args.print_errors nm inner1 p.errors
        (!generics.params.isEmpty) p.is_global

/-- The candidate filter wrapped around processMethodCore: a member of
a named interface outside the accepted list, or a non-function member,
is silently dropped. -/
def processMethod (w : WrappedItem) (cfg : Config) (args : Args)
    (impl_ : ImplData) (v : Item) : Option MethodOutcome :=
  let allowed :=
    match impl_.trait_ with
    | some t => w.config.traits.any (fun f => f.name == t)
    | none => true
  if !allowed then none
  else
    match v.inner with
    | ItemInner.function decl generics =>
        some (processMethodCore w cfg args decl generics (v.name.getD "")
          (methodDocstring w.index v.id))
    | _ => none

/-- The flattened candidate sequence of the member multi-map, in
multi-map order (impl_items.iter().flat_map over the value lists). -/
def methodPairs (w : WrappedItem) : List (ImplData × Item) :=
  (w.impl_items.map (fun p => p.2)).flatten

/-- The result of the whole Methods pass: the concatenated text
between the Methods parentheses, the used-method-name set for
field-collision renaming, and the has-global-methods flag. -/
structure MethodsOut where
  text : String
  used : List String
  hasGlobal : Bool
deriving Repr, DecidableEq

/-- The Methods pass over every candidate member (wrapper.rs, the
impl_items fold of write_derive_flags_body): concatenates each
member's emitted text, records the names of included members, and
raises the has-global-methods flag for every candidate recorded as
receiver-less, included or not. -/
def methodsFold (w : WrappedItem) (cfg : Config) (args : Args) : MethodsOut :=
  (methodPairs w).foldl
    (fun acc pr =>
      match processMethod w cfg args pr.1 pr.2 with
      | some m =>
          { text := acc.text ++ m.out
            used := if m.included then insertSet acc.used m.name else acc.used
            hasGlobal := acc.hasGlobal || m.is_global }
      | none => acc)
    ⟨"", [], false⟩

/-- The wrapper-strategy resolution of the field selector (wrapper.rs,
the chain inside the fields filter_map): is_self, then the primitive
table, then the wrapped-type table, with a fallback to the None
strategy so unknown types are later resolved as reflected values. -/
def fieldWrapper (w : WrappedItem) (cfg : Config) (arg_type : ArgType) : ArgWrapperType :=
  let base_ident := arg_type.base_ident.getD w.wrapped_type
  if arg_type.is_self then ArgWrapperType.noneW
  else if cfg.primitives.contains base_ident then ArgWrapperType.raw
  else if cfg.containsTypeKey base_ident then ArgWrapperType.wrapped
  else ArgWrapperType.noneW

/-- The field selector for one resolved field item (wrapper.rs, the
fields filter_map of write_derive_flags_body).  A field whose type
fails classification is dropped (the ok()? of the source).  The
wrapper strategy is resolved by fieldWrapper; only in its None
fallback is the ignore-reflection attribute consulted (dropping the
field) and the opaque reflected-value placeholder substituted.  Docs
are re-emitted line by line; a name already used by an included method
gets the underscore rename annotation line before the field, which
itself keeps its plain name. -/
def fieldEntry (w : WrappedItem) (cfg : Config) (used : List String)
    (field_ : Item) : Option String :=
  match field_.inner with
  | ItemInner.structField type_ =>
      match classify cfg type_ with
      | Except.error _ => none
      | Except.ok arg_type =>
          let nm := field_.name.getD ""
          let wrapper : ArgWrapperType := fieldWrapper w cfg arg_type
          let docsText :=
            strJoin ((rustLines (field_.docs.getD "")).map (fun l => ("/// ") ++ l ++ ("\n")))
          let renameText :=
            if used.contains nm then ("#[rename(\"_") ++ nm ++ ("\")]\n") else ""
          if wrapper == ArgWrapperType.noneW then
            if field_.attrs.any (fun attr => attr == ("#[reflect(ignore)]")) then none
            else
              some (docsText ++ renameText ++ nm ++ (": ") ++ ("Raw(ReflectedValue)") ++ (",\n"))
          else
            some (docsText ++ renameText ++ nm ++ (": ") ++ argDisplay arg_type wrapper ++ (",\n"))
  | _ => none

/-- The Fields pass (wrapper.rs): only a plain record kind emits
fields; each visible field id is resolved in the owning index (the
graph is assumed well-formed, spec section 6) and handed to the field
selector. -/
def fieldsSection (w : WrappedItem) (cfg : Config) (used : List String) : String :=
  match w.item.inner with
  | ItemInner.structItem s =>
      match s.kind with
      | StructKind.plain fields =>
          strJoin (fields.filterMap (fun fid =>
            match indexGet w.index fid with
            | some field_ => fieldEntry w cfg used field_
            | none => none))
      | _ => ""
  | _ => ""

/-- The parameter pass of the binary-operator mapper (wrapper.rs, the
decl.inputs map of the BinOps loop).  Parameters are processed in
order; a classification failure yields the inner silent error (the
discarded Result of the source, stopping the collect), while a
classified parameter without wrapper strategy is the unwrap panic of
the source, modelled as the outer error. -/
def binopArgs (w : WrappedItem) (cfg : Config) :
    List (String × RType) → Except GenError (Except String (List String))
  | [] => Except.ok (Except.ok [])
  | (_, t) :: rest =>
      match classify cfg t with
      | Except.error e => Except.ok (Except.error e)
      | Except.ok arg_type =>
          match ArgWrapperType.with_config w.wrapped_type arg_type cfg with
          | none =>
              Except.error (GenError.panicMsg
                ("no wrapper strategy for a binary operator parameter (unwrap on None)"))
          | some wt =>
              match binopArgs w cfg rest with
              | Except.error g => Except.error g
              | Except.ok (Except.error e) => Except.ok (Except.error e)
              | Except.ok (Except.ok ss) => Except.ok (Except.ok (argDisplay arg_type wt :: ss))

/-- The search for the associated Output type of an operator
implementation (wrapper.rs, the find_map of the BinOps loop): the
first associated-type member named Output yields its declared default
type; an Output without default is the unwrap panic of the source; no
match at all reports not-found (the silently discarded ok_or_else of
the source). -/
def findOutputAssoc (index : List (Nat × Item)) : List Nat → Except GenError (Option RType)
  | [] => Except.ok none
  | id :: rest =>
      match indexGet index id with
      | none => Except.error (GenError.panicMsg ("assoc item id not found in the index"))
      | some it =>
          match it.inner with
          | ItemInner.assocTypeItem d =>
              if it.name == some ("Output") then
                match d with
                | some ty => Except.ok (some ty)
                | none =>
                    Except.error (GenError.panicMsg
                      ("associated Output type without default (unwrap on None)"))
              else findOutputAssoc index rest
          | _ => findOutputAssoc index rest

/-- The binary-operator mapper for one accepted implementation
(wrapper.rs, the body of the BinOps for_each).  ok none models the
silently dropped implementation (classification failure of a
parameter, a missing Output associated item, a classification failure
of the declared output, or an output wrapper of the None strategy);
some text is the emitted operand list joined by the display token with
the wrapped return type; the error channel carries the unwrap panics
of the source. -/
def processBinOpImpl (w : WrappedItem) (cfg : Config) (rep : String)
    (impl_ : ImplData) (item : Item) : Except GenError (Option String) :=
  match item.inner with
  | ItemInner.function decl _ =>
      match binopArgs w cfg decl.inputs with
      | Except.error g => Except.error g
      | Except.ok (Except.error _) => Except.ok none
      | Except.ok (Except.ok ss) =>
          let expr := joinSep ((" ") ++ rep ++ (" ")) ss
          match findOutputAssoc w.index impl_.items with
          | Except.error g => Except.error g
          | Except.ok none => Except.ok none
          | Except.ok (some out_type) =>
              match classify cfg out_type with
              | Except.error _ => Except.ok none
              | Except.ok arg_type =>
                  match ArgWrapperType.with_config w.wrapped_type arg_type cfg with
                  | none =>
                      Except.error (GenError.panicMsg
                        ("no wrapper strategy for a binary operator output (unwrap on None)"))
                  | some wt =>
                      if wt == ArgWrapperType.noneW then Except.ok none
                      else
                        Except.ok (some (expr ++ (" -> ") ++ argDisplay arg_type wt ++ (",\n")))
  | _ => Except.error (GenError.panicMsg ("Expected method"))

/-- The operand filter of the binary-operator mapper (wrapper.rs):
only implementations whose implemented-for type resolves to the target
type itself (and the target is a configured wrapped type) or to a
configured primitive are considered. -/
def binopTypeOk (w : WrappedItem) (cfg : Config) (self_type : ArgType) : Bool :=
  let base := self_type.base_ident.getD w.wrapped_type
  ((base == w.wrapped_type) && cfg.containsTypeKey base) || cfg.primitives.contains base

/-- The fixed table of supported binary operators and their display
tokens (wrapper.rs BINARY_OPS). -/
def BINARY_OPS : List (String × String) :=
  [("add", "Add"), ("sub", "Sub"), ("div", "Div"), ("mul", "Mul"), ("rem", "Rem")]

/-- The BinOps pass for one operator name: the member multi-map
entries under the operator name, filtered to implementations whose
implemented-for type classifies and passes the operand filter, each
processed all-or-nothing with silent drops. -/
def binOpsForOp (w : WrappedItem) (cfg : Config) (op rep : String) :
    Except GenError String :=
  match w.impl_items.find? (fun p => p.1 == op) with
  | none => Except.ok ""
  | some pr =>
      let cands := pr.2.filterMap (fun c =>
        match classify cfg c.1.for_ with
        | Except.ok st => if binopTypeOk w cfg st then some c else none
        | Except.error _ => none)
      cands.foldlM
        (fun acc c =>
          match processBinOpImpl w cfg rep c.1 c.2 with
          | Except.error g => Except.error g
          | Except.ok (some s) => Except.ok (acc ++ s)
          | Except.ok none => Except.ok acc)
        ""

/-- The whole BinOps pass over the fixed operator table. -/
def binOpsSection (w : WrappedItem) (cfg : Config) : Except GenError String :=
  BINARY_OPS.foldlM
    (fun acc p =>
      match binOpsForOp w cfg p.1 p.2 with
      | Except.error g => Except.error g
      | Except.ok s => Except.ok (acc ++ s))
    ""

/-- The fixed table of supported unary operators (wrapper.rs
UNARY_OPS). -/
def UNARY_OPS : List (String × String) := [("neg", "Neg")]

/-- The UnaryOps pass (wrapper.rs): one unconditional token line per
implementation found under the operator name, without inspecting its
signature. -/
def unaryOpsSection (w : WrappedItem) : String :=
  strJoin (UNARY_OPS.map (fun p =>
    match w.impl_items.find? (fun q => q.1 == p.1) with
    | some pr => strJoin (pr.2.map (fun _ => p.2 ++ (" self -> self\n")))
    | none => ""))

/-- The derive-flags body of one descriptor block (wrapper.rs
write_derive_flags_body): the optional Clone and Debug flags, then the
Methods, Fields, BinOps and UnaryOps blocks in that fixed order joined
with the additive separators, then the configured derive-flag text
blocks.  Returns the text and the has-global-methods flag recorded
during the Methods pass. -/
def write_derive_flags_body (w : WrappedItem) (cfg : Config) (args : Args) :
    Except GenError (String × Bool) :=
  let cloneTxt := if w.implemented_traits.contains ("Clone") then ("Clone +\n") else ""
  let debugTxt := if w.implemented_traits.contains ("Debug") then ("Debug +\n") else ""
  let mo := methodsFold w cfg args
  let ftxt := fieldsSection w cfg mo.used
  match binOpsSection w cfg with
  | Except.error g => Except.error g
  | Except.ok btxt =>
      let utxt := unaryOpsSection w
      let flagsTxt := strJoin (w.config.derive_flags.map (fun flag =>
        ("+ ") ++ strJoin ((rustLines flag).map (fun l => l ++ ("\n")))))
      Except.ok
        (cloneTxt ++ debugTxt ++
         ("Methods\n(") ++ mo.text ++ (")") ++
         ("+ Fields\n(") ++ ftxt ++ (")") ++
         ("+ BinOps\n(") ++ btxt ++ (")") ++
         ("+ UnaryOps\n(") ++ utxt ++ (")") ++ flagsTxt,
         mo.hasGlobal)

/-- The docstring of the type, config override first (wrapper.rs
write_type_docstring). -/
def write_type_docstring (w : WrappedItem) : String :=
  let strings :=
    match w.config.doc with
    | some d => d
    | none => w.item.docs.getD ""
  strJoin ((rustLines strings).map (fun l => ("/// ") ++ l ++ ("\n")))

/-- The inline full path of the type (wrapper.rs
write_inline_full_path): the import-path override, or the joined path
components. -/
def write_inline_full_path (w : WrappedItem) : String :=
  if w.config.import_path == "" then joinSep ("::") w.path_components
  else w.config.import_path

/-- The manual impl-block body (wrapper.rs write_impl_block_body). -/
def write_impl_block_body (w : WrappedItem) : String :=
  strJoin (w.config.lua_methods.map (fun v => v ++ (";\n")))

/-- The language-feature marker line written by
generate_on_feature_attribute (lib.rs). -/
def onFeatureLine : String := "#[languages(on_feature(lua))]"

/-- The part of a per-type macro invocation block that follows the two
marker lines (lib.rs, the body of the iter_mut loop of
generate_macros, from write_type_docstring on): the type docstring,
the inline full path, the derive-flags body and the lua impl block;
split out so that the marker placement can be stated about the block
head. -/
def macroRest (w : WrappedItem) (body : String) : String :=
  write_type_docstring w ++
  write_inline_full_path w ++ (" : ") ++ ("\n") ++
  body ++
  ("lua impl\n") ++ ("\x7b") ++ write_impl_block_body w ++ ("\x7d") ++ ("\x7d")

/-- One per-type macro invocation block (lib.rs, the body of the
iter_mut loop of generate_macros): the macro head, the marker helper
invocation followed by the same literal written again, then the rest
of the block starting with the type docstring.  Returns the text and
the updated has-global-methods flag. -/
def macroBlockText (w : WrappedItem) (cfg : Config) (args : Args) :
    Except GenError (String × Bool) :=
  match write_derive_flags_body w cfg args with
  | Except.error g => Except.error g
  | Except.ok body =>
      Except.ok
        ((("impl_script_newtype!") ++ ("\x7b") ++
          onFeatureLine ++ ("\n") ++ onFeatureLine ++ ("\n") ++
          macroRest w body.1),
         body.2)

/-- The position of a type name in the ordered configuration
(IndexMap::get_index_of as used by the sort key of generate_macros). -/
def configKeyIdx (cfg : Config) (nm : String) : Nat :=
  cfg.types.findIdx (fun p => p.1 == nm)

/-- Stable insertion of one item into a list sorted by configuration
position. -/
def insertByKey (cfg : Config) (x : WrappedItem) : List WrappedItem → List WrappedItem
  | [] => [x]
  | y :: ys =>
      if configKeyIdx cfg y.wrapped_type ≤ configKeyIdx cfg x.wrapped_type
      then y :: insertByKey cfg x ys
      else x :: y :: ys

/-- The re-sort of the built items by their position in the ordered
configuration (lib.rs: wrapped_items.sort_by_cached_key with
get_index_of), replacing the graph iteration order. -/
def sortWrapped (cfg : Config) (ws : List WrappedItem) : List WrappedItem :=
  ws.foldr (insertByKey cfg) []

/-- The conditional feature-gate header (lib.rs
generate_cfg_feature_attribute): one feature gives the simple guard,
several give the conjunctive guard, none gives nothing. -/
def generate_cfg_feature_attribute (cfg : Config) : String :=
  if cfg.required_features.length == 1 then
    ("#[cfg(feature=\"") ++ (cfg.required_features.headD "") ++ ("\")]\n")
  else if !cfg.required_features.isEmpty then
    ("#[cfg(all(\n") ++
    strJoin (cfg.required_features.map (fun f => ("feature=\"") ++ f ++ ("\",\n"))) ++
    ("))]\n")
  else ""

/-- The global-instance registry entries (lib.rs, the chain feeding
the add_instance loop): every wrapped item whose has-global-methods
flag is set, then every manually declared type requesting the global
proxy. -/
def globalsEntries (ws : List WrappedItem) (cfg : Config) : List (String × String × Bool) :=
  ws.filterMap (fun i =>
    if i.has_global_methods then some (i.wrapped_type, i.wrapper_name, false) else none)
  ++ cfg.manual_lua_types.filterMap (fun i =>
    if i.include_global_proxy then some (i.proxy_name, i.name, i.use_dummy_proxy) else none)

/-- One add_instance line of the globals section (lib.rs). -/
def globalInstanceText (e : String × String × Bool) : String :=
  ("instances.add_instance(\"") ++ e.1 ++ ("\"") ++
  (if e.2.2 then
     (", crate::lua::util::DummyTypeName::<") ++ e.2.1 ++ (">::new)?;\n")
   else
     (", bevy_mod_scripting_lua::tealr::mlu::UserDataProxy::<") ++ e.2.1 ++ (">::new)?;\n"))

/-- The deduplicated interface imports in first-use order (lib.rs,
the imported set loop). -/
def traitImportsText (ws : List WrappedItem) : String :=
  (ws.foldl
    (fun (acc : List String × String) it =>
      it.config.traits.foldl
        (fun acc2 tm =>
          if acc2.1.contains tm.name then acc2
          else (acc2.1 ++ [tm.name], acc2.2 ++ ("use ") ++ tm.import_path ++ (";\n")))
        acc)
    ([], "")).2

/-- The Globals struct and its ExportInstances implementation (lib.rs,
the section after the per-type blocks).  Apostrophes of the source
literals appear as their character escape. -/
def apiGlobalsText (ws : List WrappedItem) (cfg : Config) : String :=
  generate_cfg_feature_attribute cfg ++
  ("#[derive(Default)]\n") ++
  ("pub(crate) struct ") ++ cfg.api_name ++ ("Globals;\n") ++
  generate_cfg_feature_attribute cfg ++
  ("impl bevy_mod_scripting_lua::tealr::mlu::ExportInstances for ") ++ cfg.api_name ++
  ("Globals") ++ ("\x7b") ++
  ("fn add_instances<\x27lua, T: bevy_mod_scripting_lua::tealr::mlu::InstanceCollector<\x27lua>>(self, instances: &mut T) -> bevy_mod_scripting_lua::tealr::mlu::mlua::Result<()>\n") ++
  ("\x7b") ++
  strJoin ((globalsEntries ws cfg).map globalInstanceText) ++
  ("Ok(())\n") ++ ("\x7d") ++ ("\x7d")

/-- The documentation-generation entries (lib.rs, the process_type
chain): every wrapped item with its has-global-methods flag, then
every manually declared type not marked dont_process. -/
def docTypesEntries (ws : List WrappedItem) (cfg : Config) : List (String × Bool) :=
  ws.map (fun i => (i.wrapper_name, i.has_global_methods)) ++
  cfg.manual_lua_types.filterMap (fun i =>
    if !i.dont_process then some (i.name, i.include_global_proxy) else none)

/-- One process_type line pair of the doc fragment (lib.rs). -/
def processTypeText (e : String × Bool) : String :=
  (".process_type::<") ++ e.1 ++ (">()\n") ++
  (if e.2 then
     (".process_type::<bevy_mod_scripting_lua::tealr::mlu::UserDataProxy<") ++ e.1 ++ (">>()\n")
   else "")

/-- The runtime foreign-type registration entries (lib.rs,
register_with_app): every wrapped type name, then every configured
primitive name. -/
def registerEntries (ws : List WrappedItem) (cfg : Config) : List String :=
  ws.map (fun i => i.wrapped_type) ++ cfg.primitives

/-- The API provider implementation (lib.rs, the text after the
globals section). -/
def providerText (ws : List WrappedItem) (cfg : Config) : String :=
  generate_cfg_feature_attribute cfg ++
  ("pub struct Lua") ++ cfg.api_name ++ ("Provider;\n") ++
  generate_cfg_feature_attribute cfg ++
  ("impl APIProvider for Lua") ++ cfg.api_name ++ ("Provider") ++ ("\x7b") ++
  ("type APITarget = Mutex<bevy_mod_scripting_lua::tealr::mlu::mlua::Lua>;\n") ++
  ("type ScriptContext = Mutex<bevy_mod_scripting_lua::tealr::mlu::mlua::Lua>;\n") ++
  ("type DocTarget = LuaDocFragment;\n") ++
  ("fn attach_api(&mut self, ctx: &mut Self::APITarget) -> Result<(), ScriptError>") ++
  ("\x7b") ++
  ("let ctx = ctx.get_mut().expect(\"Unable to acquire lock on Lua context\");\n") ++
  ("bevy_mod_scripting_lua::tealr::mlu::set_global_env(") ++ cfg.api_name ++
  ("Globals,ctx).map_err(|e| ScriptError::Other(e.to_string()))\n") ++
  ("\x7d") ++
  ("fn get_doc_fragment(&self) -> Option<Self::DocTarget>") ++ ("\x7b") ++
  ("Some(LuaDocFragment::new(\"") ++ cfg.api_name ++ ("\", |tw|") ++ ("\x7b") ++
  ("tw\n") ++
  (".document_global_instance::<") ++ cfg.api_name ++
  ("Globals>().expect(\"Something went wrong documenting globals\")\n") ++
  strJoin ((docTypesEntries ws cfg).map processTypeText) ++
  ("\x7d") ++ ("))\n") ++
  ("\x7d") ++
  strJoin ((rustLines cfg.lua_api_defaults).map (fun l => l ++ ("\n"))) ++
  ("fn register_with_app(&self, app: &mut App)") ++ ("\x7b") ++
  strJoin ((registerEntries ws cfg).map (fun item =>
    ("app.register_foreign_lua_type::<") ++ item ++ (">();\n"))) ++
  ("\x7d") ++ ("\x7d")

/-- The whole generator run (lib.rs generate_macros): build every
matched item (panicking on a malformed graph), batch-collect the
unmatched configured names and abort with the single aggregated fatal
error before any output exists, otherwise re-sort into configuration
order and emit the artifact: header, user imports, per-item use items,
deduplicated interface imports, one macro block per item (updating the
has-global-methods flags), the user other-code block, the globals
section and the provider. -/
def generate_macros (crates : List Crate) (cfg : Config) (args : Args) :
    Except GenError String :=
  match buildAllWrapped crates cfg with
  | Except.error g => Except.error g
  | Except.ok ws =>
      let unmatched := unmatchedOf cfg ws
      if !unmatched.isEmpty then Except.error (GenError.missingTypes unmatched)
      else
        let sorted := sortWrapped cfg ws
        let header :=
          ("#![allow(clippy::all,unused_imports)]\n") ++
          strJoin ((rustLines cfg.imports).map (fun l => l ++ ("\n")))
        let uses := strJoin (sorted.map (fun it =>
          write_use_items_from_path it.config.source (it.path_components.drop 1)
            it.config.import_path))
        let traitImports := traitImportsText sorted
        match sorted.mapM (fun it =>
          match macroBlockText it cfg args with
          | Except.error g => Except.error g
          | Except.ok p => Except.ok ({ it with has_global_methods := p.2 }, p.1)) with
        | Except.error g => Except.error g
        | Except.ok pairs =>
            let updated := pairs.map (fun p => p.1)
            let blocks := strJoin (pairs.map (fun p => p.2))
            let otherTxt := strJoin ((rustLines cfg.other).map (fun l => l ++ ("\n")))
            Except.ok
              (header ++ uses ++ traitImports ++ blocks ++ otherTxt ++
               apiGlobalsText updated cfg ++ providerText updated cfg)

/-- Spec-side definition, following the words of the specification
(section 4.4, rule 3): one reason per parameter that fails to classify
or classifies without a wrapper strategy, gathered independently for
every parameter. -/
def specParamReasons (self_name : String) (cfg : Config)
    (inputs : List (String × RType)) : List String :=
  inputs.filterMap (fun pr =>
    match classify cfg pr.2 with
    | Except.error e =>
        some (("Unsupported argument, Not a simple type: ") ++ e ++ ("."))
    | Except.ok at_ =>
        match ArgWrapperType.with_config self_name at_ cfg with
        | none =>
            some (("Unsupported argument ") ++ at_.display ++
              (", not a wrapped type or primitive"))
        | some _ => none)

/-- Spec-side definition, following the words of the specification
(section 4.4, rule 5): the reasons contributed by the declared return
type, gathered independently of everything else. -/
def specReturnReasons (self_name : String) (cfg : Config)
    (output : Option RType) : List String :=
  match output with
  | none => []
  | some tp =>
      match classify cfg tp with
      | Except.error e => [("Unsupported argument, not a simple type: ") ++ e]
      | Except.ok at_ =>
          match at_ with
          | ArgType.ref _ _ => [("references are not supported as return types")]
          | _ =>
              match ArgWrapperType.with_config self_name at_ cfg with
              | none =>
                  [("Unsupported argument, not a wrapped type or primitive ") ++ at_.display]
              | some _ => []

/-- Spec-side definition, following the words of the claim: the full
accumulation of every applicable exclusion reason of a candidate
method, with no short-circuiting: all parameter reasons, then all
return reasons, then the generic-method reason. -/
def specMethodReasons (self_name : String) (cfg : Config) (decl : FnDecl)
    (generics : ItemGenerics) : List String :=
  specParamReasons self_name cfg decl.inputs ++
  specReturnReasons self_name cfg decl.output ++
  (if generics.params.isEmpty then [] else [("Generics on the method")])

/-- Whether the declared return type classifies to a reference (the
early-exit trigger of the source's method selector). -/
def returnClassifiesRef (cfg : Config) (output : Option RType) : Bool :=
  match output with
  | some tp =>
      match classify cfg tp with
      | Except.ok (ArgType.ref _ _) => true
      | _ => false
  | none => false

/-- Whether a member pair is a candidate of the method selector: its
interface, if named, is in the accepted list, and the member is a
function. -/
def isCandidate (w : WrappedItem) (pr : ImplData × Item) : Bool :=
  (match pr.1.trait_ with
   | some t => w.config.traits.any (fun f => f.name == t)
   | none => true) &&
  (match pr.2.inner with
   | ItemInner.function _ _ => true
   | _ => false)

/-- Spec-side characterization of the receiver-less flag the source
records for a candidate: no parameter is simultaneously named self,
classifiable, and equipped with a wrapper strategy. -/
def specIsGlobal (self_name : String) (cfg : Config)
    (inputs : List (String × RType)) : Bool :=
  inputs.all (fun pr =>
    !(pr.1 == ("self") &&
      (match classify cfg pr.2 with
       | Except.ok at_ => (ArgWrapperType.with_config self_name at_ cfg).isSome
       | Except.error _ => false)))

/-- Spec-side characterization: a candidate member that the source
records as receiver-less, included or not. -/
def candGlobal (w : WrappedItem) (cfg : Config) (pr : ImplData × Item) : Bool :=
  isCandidate w pr &&
  (match pr.2.inner with
   | ItemInner.function decl _ => specIsGlobal w.wrapped_type cfg decl.inputs
   | _ => false)

/-- Claim-side definition, following the words of the claim of the
has-global-methods invariant: at least one selected (included, not
excluded) method has no receiver parameter. -/
def claimedHasGlobal (w : WrappedItem) (cfg : Config) (args : Args) : Bool :=
  (methodPairs w).any (fun pr =>
    match processMethod w cfg args pr.1 pr.2 with
    | some m => m.included && m.is_global
    | none => false)

/-- Whether the pattern occurs as a contiguous infix of the character
list. -/
def hasInfixC (p : List Char) : List Char → Bool
  | [] => p.isEmpty
  | c :: cs => p.isPrefixOf (c :: cs) || hasInfixC p cs

/-- The number of starting positions at which the pattern occurs as a
contiguous infix of the character list (occurrences may overlap). -/
def countInfixC (p : List Char) : List Char → Nat
  | [] => 0
  | c :: cs => (if p.isPrefixOf (c :: cs) then 1 else 0) + countInfixC p cs

/-- Decidable equality of Except values, used to evaluate the
generator on concrete fixtures. -/
instance instDecEqExcept {ε α : Type _} [DecidableEq ε] [DecidableEq α] :
    DecidableEq (Except ε α) := fun x y =>
  match x, y with
  | Except.ok a, Except.ok b =>
      if h : a = b then isTrue (by rw [h])
      else isFalse (by intro hc; cases hc; exact h rfl)
  | Except.error a, Except.error b =>
      if h : a = b then isTrue (by rw [h])
      else isFalse (by intro hc; cases hc; exact h rfl)
  | Except.ok _, Except.error _ => isFalse (by intro hc; cases hc)
  | Except.error _, Except.ok _ => isFalse (by intro hc; cases hc)

/-- Fixture: the configuration entry for the target type Foo. -/
def ntFoo : Newtype :=
  { type_ := "Foo", source := "bevy_foo", import_path := "", traits := [],
    derive_flags := [], lua_methods := [], doc := none }

/-- Fixture: a configuration with one target type Foo and the
primitive f32. -/
def cfgFoo : Config :=
  { types := [(("Foo"), ntFoo)], primitives := [("f32")], imports := "", other := "",
    api_name := "Api", lua_api_defaults := "", manual_lua_types := [],
    required_features := [], output_file := "out.rs" }

/-- Fixture: the method bar(x: Unk) with no receiver; Unk is in no
configuration table, so the parameter classifies but has no wrapper
strategy. -/
def itemBar : Item :=
  { id := 2, name := some ("bar"), docs := none, attrs := [],
    inner := ItemInner.function ⟨[(("x"), RType.named ("Unk"))], none⟩ ⟨[]⟩ }

/-- Fixture: the method value(self) -> f32, included by the selector. -/
def itemValue : Item :=
  { id := 3, name := some ("value"), docs := none, attrs := [],
    inner := ItemInner.function ⟨[(("self"), RType.selfTy)], some (RType.named ("f32"))⟩ ⟨[]⟩ }

/-- Fixture: the self implementation block of Foo with members bar and
value. -/
def implFooData : ImplData :=
  { trait_ := none, for_ := RType.named ("Foo"), items := [2, 3] }

/-- Fixture: the field value: f32 (name collides with the included
method value). -/
def fieldItemValue : Item :=
  { id := 4, name := some ("value"), docs := none, attrs := [],
    inner := ItemInner.structField (RType.named ("f32")) }

/-- Fixture: the field w of a tuple type, which fails
classification. -/
def fieldItemW : Item :=
  { id := 5, name := some ("w"), docs := none, attrs := [],
    inner := ItemInner.structField (RType.complex ("tuple")) }

/-- Fixture: the field x: f32 carrying the ignore-reflection
annotation. -/
def fieldItemX : Item :=
  { id := 6, name := some ("x"), docs := none, attrs := [("#[reflect(ignore)]")],
    inner := ItemInner.structField (RType.named ("f32")) }

/-- Fixture: the field z: Unk whose type classifies but has no wrapper
strategy. -/
def fieldItemZ : Item :=
  { id := 7, name := some ("z"), docs := none, attrs := [],
    inner := ItemInner.structField (RType.named ("Unk")) }

/-- Fixture: the target record type Foo with one implementation block
and four visible fields. -/
def itemFoo : Item :=
  { id := 0, name := some ("Foo"), docs := none, attrs := [],
    inner := ItemInner.structItem { kind := StructKind.plain [4, 5, 6, 7], impls := [1] } }

/-- Fixture: the implementation-block item wrapping implFooData. -/
def implItemFoo : Item :=
  { id := 1, name := none, docs := none, attrs := [],
    inner := ItemInner.implItem implFooData }

/-- Fixture: one type graph holding Foo, its implementation block, its
members and its fields, with the path entry for Foo. -/
def crateFoo : Crate :=
  { index :=
      [(0, itemFoo), (1, implItemFoo), (2, itemBar), (3, itemValue),
       (4, fieldItemValue), (5, fieldItemW), (6, fieldItemX), (7, fieldItemZ)],
    paths := [(0, [("bevy_foo"), ("Foo")])] }

/-- Fixture: the WrappedItem the member collector derives for Foo from
crateFoo. -/
def wFoo : WrappedItem :=
  { wrapper_name := "LuaFoo", wrapped_type := "Foo",
    path_components := [("bevy_foo"), ("Foo")], config := ntFoo, item := itemFoo,
    index := crateFoo.index, self_impl := some implFooData,
    impl_items := [(("bar"), [(implFooData, itemBar)]), (("value"), [(implFooData, itemValue)])],
    implemented_traits := [], has_global_methods := false }

/-- Fixture: diagnostics enabled. -/
def argsOn : Args := { print_errors := true }

/-- Fixture: diagnostics disabled. -/
def argsOff : Args := { print_errors := false }

/-- Fixture: a binary-operator implementation of Add for Foo whose
right-hand operand Weird classifies but has no wrapper strategy. -/
def implAddData : ImplData :=
  { trait_ := some ("Add"), for_ := RType.named ("Foo"), items := [] }

/-- Fixture: the add function of the Add implementation. -/
def itemAddFn : Item :=
  { id := 10, name := some ("add"), docs := none, attrs := [],
    inner := ItemInner.function
      ⟨[(("self"), RType.selfTy), (("rhs"), RType.named ("Weird"))], none⟩ ⟨[]⟩ }

/-- Fixture: a WrappedItem for Foo whose member multi-map holds the
Add implementation. -/
def wAdd : WrappedItem :=
  { wrapper_name := "LuaFoo", wrapped_type := "Foo",
    path_components := [("bevy_foo"), ("Foo")], config := ntFoo, item := itemFoo,
    index := [], self_impl := none,
    impl_items := [(("add"), [(implAddData, itemAddFn)])],
    implemented_traits := [], has_global_methods := false }

/-- Fixture: a configuration naming Foo and a type Ghost that no graph
item matches. -/
def cfgMissing : Config :=
  { types := [(("Foo"), ntFoo), (("Ghost"), { ntFoo with type_ := "Ghost" })],
    primitives := [("f32")], imports := "", other := "", api_name := "Api",
    lua_api_defaults := "", manual_lua_types := [], required_features := [],
    output_file := "out.rs" }

/-- Fixture: a minimal WrappedItem with a given type name, for the
ordering claims. -/
def mkW (nm : String) : WrappedItem :=
  { wrapper_name := ("Lua") ++ nm, wrapped_type := nm, path_components := [],
    config := { ntFoo with type_ := nm }, item := itemFoo, index := [],
    self_impl := none, impl_items := [], implemented_traits := [],
    has_global_methods := false }

/-- Fixture: a configuration declaring the three types A, B, C in that
order. -/
def cfgABC : Config :=
  { types :=
      [(("A"), { ntFoo with type_ := "A" }), (("B"), { ntFoo with type_ := "B" }),
       (("C"), { ntFoo with type_ := "C" })],
    primitives := [], imports := "", other := "", api_name := "Api",
    lua_api_defaults := "", manual_lua_types := [], required_features := [],
    output_file := "out.rs" }

/-- Fixture: a method with a generic parameter and a reference return
type, for the short-circuit analysis of the method selector. -/
def itemRefGen : Item :=
  { id := 9, name := some ("r"), docs := none, attrs := [],
    inner := ItemInner.function
      ⟨[(("self"), RType.selfTy)], some (RType.borrowedRef false (RType.named ("f32")))⟩
      ⟨[("T")]⟩ }

/-- Fixture: the field y: Unk carrying the ignore-reflection
annotation; its wrapper resolution falls back to the None strategy. -/
def fieldItemY : Item :=
  { id := 8, name := some ("y"), docs := none, attrs := [("#[reflect(ignore)]")],
    inner := ItemInner.structField (RType.named ("Unk")) }

/-- Claim C9 (counterexample).  The claim says the umbrella rewrite
fires whenever the module name begins with the four-character root
prefix bevy and is strictly longer than that prefix.  The module name
of five characters below satisfies that condition, yet the source
requires strictly more than five characters and emits the name
unchanged, with no umbrella alias. -/
theorem c9_counterexample_boundary_length_five :
    strStarts ("bevy_") ("bevy") = true ∧
    strLen ("bevy") < strLen ("bevy_") ∧
    write_use_items_from_path ("bevy_") [] "" = "use bevy_;\n" ∧
    ("use bevy::").data.isPrefixOf (write_use_items_from_path ("bevy_") [] "").data = false := by
  decide

/-- Claim C9 (amended).  Without an import-path override, a module
name that begins with bevy and has strictly more than five characters
is emitted as the umbrella alias followed by the name with its first
five characters removed; any other module name is emitted unchanged;
the path components follow in both cases. -/
theorem c9_amended_bevy_rewrite (module_name : String) (path_components : List String) :
    (strStarts module_name ("bevy") = true → 5 < strLen module_name →
      write_use_items_from_path module_name path_components "" =
        ("use ") ++
          ((("bevy::") ++ strDrop module_name 5) ++
            strJoin (path_components.map (fun item => ("::") ++ item))) ++ (";\n")) ∧
    (¬ (strStarts module_name ("bevy") = true ∧ 5 < strLen module_name) →
      write_use_items_from_path module_name path_components "" =
        ("use ") ++
          (module_name ++ strJoin (path_components.map (fun item => ("::") ++ item))) ++
          (";\n")) := by
  constructor
  · intro h1 h2
    simp [write_use_items_from_path, h1, h2]
  · intro h
    have hcond : (strStarts module_name ("bevy") && decide (5 < strLen module_name)) = false := by
      cases hs : strStarts module_name ("bevy") with
      | false => simp
      | true =>
          have hl : ¬ (5 < strLen module_name) := fun hl => h ⟨hs, hl⟩
          simp [hl]
    simp [write_use_items_from_path, hcond]

/-- Witness for c9_amended_bevy_rewrite at a concrete input. -/
theorem c9_amended_bevy_rewrite_witness :
    write_use_items_from_path ("bevy_core") [] "" = "use bevy::core;\n" ∧
    write_use_items_from_path ("serde") [("de")] "" = "use serde::de;\n" := by
  constructor
  · have h := (c9_amended_bevy_rewrite ("bevy_core") []).1 (by decide) (by decide)
    exact h.trans (by decide)
  · have h := (c9_amended_bevy_rewrite ("serde") [("de")]).2 (by decide)
    exact h.trans (by decide)

/-- Claim C1 (confirmed).  When the graphs are well-formed enough for
the build pass to finish and at least one configured type name is
matched by no item, the whole run resolves to the single aggregated
fatal error carrying every missing name at once, and no artifact is
produced. -/
theorem c1_missing_types_single_aggregated_error (crates : List Crate) (cfg : Config)
    (args : Args) (ws : List WrappedItem)
    (hbuild : buildAllWrapped crates cfg = Except.ok ws)
    (hmiss : unmatchedOf cfg ws ≠ []) :
    generate_macros crates cfg args =
      Except.error (GenError.missingTypes (unmatchedOf cfg ws)) ∧
    ∀ artifact, generate_macros crates cfg args ≠ Except.ok artifact := by
  have hemp : (unmatchedOf cfg ws).isEmpty = false := by
    cases hu : unmatchedOf cfg ws with
    | nil => exact (hmiss hu).elim
    | cons a l => rfl
  have hres : generate_macros crates cfg args =
      Except.error (GenError.missingTypes (unmatchedOf cfg ws)) := by
    unfold generate_macros
    rw [hbuild]
    simp [hemp]
  exact ⟨hres, fun artifact h => by rw [hres] at h; cases h⟩

/-- Witness for c1_missing_types_single_aggregated_error: the
configured name Ghost matches nothing in the fixture graph and the run
aborts with exactly the aggregated error naming it. -/
theorem c1_missing_types_witness :
    generate_macros [crateFoo] cfgMissing argsOn =
      Except.error (GenError.missingTypes [("Ghost")]) := by
  have h := c1_missing_types_single_aggregated_error [crateFoo] cfgMissing argsOn _ rfl
    (by decide)
  exact h.1.trans (by decide)

theorem insertByKey_perm (cfg : Config) (x : WrappedItem) :
    ∀ l : List WrappedItem, (insertByKey cfg x l).Perm (x :: l) := by
  intro l
  induction l with
  | nil => simp [insertByKey]
  | cons y ys ih =>
      by_cases hc : configKeyIdx cfg y.wrapped_type ≤ configKeyIdx cfg x.wrapped_type
      · simp only [insertByKey, if_pos hc]
        exact (ih.cons y).trans (List.Perm.swap x y ys)
      · simp [insertByKey, if_neg hc]

theorem sortWrapped_perm (cfg : Config) (ws : List WrappedItem) :
    (sortWrapped cfg ws).Perm ws := by
  induction ws with
  | nil => simp [sortWrapped]
  | cons a l ih =>
      have : sortWrapped cfg (a :: l) = insertByKey cfg a (sortWrapped cfg l) := rfl
      rw [this]
      exact (insertByKey_perm cfg a (sortWrapped cfg l)).trans (ih.cons a)

theorem insertByKey_sorted (cfg : Config) (x : WrappedItem) :
    ∀ l : List WrappedItem,
      l.Pairwise (fun a b => configKeyIdx cfg a.wrapped_type ≤ configKeyIdx cfg b.wrapped_type) →
      (insertByKey cfg x l).Pairwise
        (fun a b => configKeyIdx cfg a.wrapped_type ≤ configKeyIdx cfg b.wrapped_type) := by
  intro l
  induction l with
  | nil => intro _; simp [insertByKey]
  | cons y ys ih =>
      intro h
      obtain ⟨hhead, htail⟩ := List.pairwise_cons.mp h
      by_cases hc : configKeyIdx cfg y.wrapped_type ≤ configKeyIdx cfg x.wrapped_type
      · simp only [insertByKey, if_pos hc]
        apply List.pairwise_cons.mpr
        refine ⟨?_, ih htail⟩
        intro z hz
        rcases List.mem_cons.mp ((insertByKey_perm cfg x ys).mem_iff.mp hz) with hz1 | hz2
        · exact hz1 ▸ hc
        · exact hhead z hz2
      · simp only [insertByKey, if_neg hc]
        apply List.pairwise_cons.mpr
        refine ⟨?_, h⟩
        intro z hz
        rcases List.mem_cons.mp hz with hz1 | hz2
        · exact hz1 ▸ Nat.le_of_not_le hc
        · exact Nat.le_trans (Nat.le_of_not_le hc) (hhead z hz2)

theorem sortWrapped_sorted (cfg : Config) (ws : List WrappedItem) :
    (sortWrapped cfg ws).Pairwise
      (fun a b => configKeyIdx cfg a.wrapped_type ≤ configKeyIdx cfg b.wrapped_type) := by
  induction ws with
  | nil => simp [sortWrapped]
  | cons a l ih => exact insertByKey_sorted cfg a (sortWrapped cfg l) ih

theorem sorted_perm_unique {α : Type _} (key : α → Nat) :
    ∀ (m l : List α), l.Perm m →
      l.Pairwise (fun a b => key a ≤ key b) →
      m.Pairwise (fun a b => key a < key b) →
      l = m := by
  intro m
  induction m with
  | nil => intro l h _ _; exact List.perm_nil.mp h
  | cons b m' ih =>
      intro l h hl hm
      cases l with
      | nil =>
          have := List.perm_nil.mp h.symm
          cases this
      | cons a l' =>
          have hab : a = b := by
            by_contra hne
            have hbmem : b ∈ l' := by
              have : b ∈ a :: l' := h.mem_iff.mpr (List.mem_cons_self b m')
              rcases List.mem_cons.mp this with h1 | h2
              · exact absurd h1.symm hne
              · exact h2
            have hamem : a ∈ m' := by
              have : a ∈ b :: m' := h.mem_iff.mp (List.mem_cons_self a l')
              rcases List.mem_cons.mp this with h1 | h2
              · exact absurd h1 hne
              · exact h2
            have h1 : key a ≤ key b := (List.pairwise_cons.mp hl).1 b hbmem
            have h2 : key b < key a := (List.pairwise_cons.mp hm).1 a hamem
            exact absurd h1 (Nat.not_le.mpr h2)
          subst hab
          have h' : l'.Perm m' := h.cons_inv
          have := ih l' h' (List.pairwise_cons.mp hl).2 (List.pairwise_cons.mp hm).2
          rw [this]

theorem findIdx_fst (l : List (String × Newtype)) (nm : String) :
    l.findIdx (fun p => p.1 == nm) = (l.map Prod.fst).findIdx (fun x => x == nm) := by
  induction l with
  | nil => rfl
  | cons a t ih => simp [List.findIdx_cons, ih]

theorem findIdx_pairwise_lt (l : List String) (hnd : l.Nodup) :
    l.Pairwise (fun a b =>
      l.findIdx (fun x => x == a) < l.findIdx (fun x => x == b)) := by
  induction l with
  | nil => exact List.Pairwise.nil
  | cons a t ih =>
      obtain ⟨hna, hndt⟩ := List.nodup_cons.mp hnd
      apply List.pairwise_cons.mpr
      constructor
      · intro b hb
        have hne : (a == b) = false := by
          have : a ≠ b := fun h => hna (h ▸ hb)
          simp [this]
        simp [List.findIdx_cons, hne]
      · refine List.Pairwise.imp_of_mem ?_ (ih hndt)
        intro x y hx hy hxy
        have hax : (a == x) = false := by
          have : a ≠ x := fun h => hna (h ▸ hx)
          simp [this]
        have hay : (a == y) = false := by
          have : a ≠ y := fun h => hna (h ▸ hy)
          simp [this]
        simp [List.findIdx_cons, hax, hay]
        omega

/-- Claim C2 (confirmed).  When every configured type name is matched
exactly once (the built item names are a permutation of the distinct
configured names), the re-sort of generate_macros puts the per-type
descriptor blocks exactly in configuration declaration order, whatever
iteration order the hash-based graph storage produced; in particular
three configured types A, B, C always emit as A, B, C. -/
theorem c2_output_order_follows_config (cfg : Config) (ws : List WrappedItem)
    (hnd : (cfg.types.map Prod.fst).Nodup)
    (hperm : (ws.map (fun w => w.wrapped_type)).Perm (cfg.types.map Prod.fst)) :
    (sortWrapped cfg ws).map (fun w => w.wrapped_type) = cfg.types.map Prod.fst := by
  apply sorted_perm_unique (fun nm => configKeyIdx cfg nm)
  · exact (((sortWrapped_perm cfg ws).map (fun w => w.wrapped_type)).trans hperm)
  · exact List.pairwise_map.mpr (sortWrapped_sorted cfg ws)
  · have base := findIdx_pairwise_lt (cfg.types.map Prod.fst) hnd
    exact base.imp (fun {a b} h => by
      simpa [configKeyIdx, findIdx_fst] using h)

/-- Witness for c2_output_order_follows_config: the graph delivered
the three configured types in the order C, A, B and the emitted order
is still A, B, C. -/
theorem c2_output_order_witness :
    (sortWrapped cfgABC [mkW ("C"), mkW ("A"), mkW ("B")]).map (fun w => w.wrapped_type) =
      [("A"), ("B"), ("C")] := by
  have h := c2_output_order_follows_config cfgABC [mkW ("C"), mkW ("A"), mkW ("B")]
    (by decide) (by decide)
  exact h.trans (by decide)

theorem processParams_errors (self_name : String) (cfg : Config) (n : Nat) :
    ∀ (inputs : List (String × RType)) (i : Nat),
      (processParams self_name cfg n i inputs).errors =
        specParamReasons self_name cfg inputs := by
  intro inputs
  induction inputs with
  | nil => intro i; rfl
  | cons pr rest ih =>
      intro i
      obtain ⟨dn, tp⟩ := pr
      cases h : classify cfg tp with
      | ok at_ =>
          cases hw : ArgWrapperType.with_config self_name at_ cfg with
          | some w =>
              simp only [processParams, specParamReasons, List.filterMap_cons, h, hw]
              simp [ih (i + 1), specParamReasons]
          | none =>
              simp only [processParams, specParamReasons, List.filterMap_cons, h, hw]
              simp [ih (i + 1), specParamReasons]
      | error e =>
          simp only [processParams, specParamReasons, List.filterMap_cons, h]
          simp [ih (i + 1), specParamReasons]

theorem processParams_global (self_name : String) (cfg : Config) (n : Nat) :
    ∀ (inputs : List (String × RType)) (i : Nat),
      (processParams self_name cfg n i inputs).is_global =
        specIsGlobal self_name cfg inputs := by
  intro inputs
  induction inputs with
  | nil => intro i; rfl
  | cons pr rest ih =>
      intro i
      obtain ⟨dn, tp⟩ := pr
      cases h : classify cfg tp with
      | ok at_ =>
          cases hw : ArgWrapperType.with_config self_name at_ cfg with
          | some w =>
              simp only [processParams, specIsGlobal, List.all_cons, h, hw]
              simp [ih (i + 1), specIsGlobal, bne]
          | none =>
              simp only [processParams, specIsGlobal, List.all_cons, h, hw]
              simp [ih (i + 1), specIsGlobal]
      | error e =>
          simp only [processParams, specIsGlobal, List.all_cons, h]
          simp [ih (i + 1), specIsGlobal]

theorem finishMethod_spec (pe : Bool) (nm inner : String) (errs : List String)
    (gne : Bool) (ig : Bool) :
    (finishMethod pe nm inner errs gne ig).errors =
      (if gne then errs ++ [("Generics on the method")] else errs) ∧
    ((finishMethod pe nm inner errs gne ig).included = true ↔
      (if gne then errs ++ [("Generics on the method")] else errs) = []) ∧
    (pe = true → (if gne then errs ++ [("Generics on the method")] else errs) ≠ [] →
      ∃ rest, (finishMethod pe nm inner errs gne ig).out =
        ("// Exclusion reason: ") ++
          joinSep (",") (if gne then errs ++ [("Generics on the method")] else errs) ++
          ("\n") ++ rest) := by
  by_cases he : (if gne then errs ++ [("Generics on the method")] else errs) = []
  · have hemp : (if gne then errs ++ [("Generics on the method")] else errs).isEmpty = true :=
      List.isEmpty_iff.mpr he
    refine ⟨?_, ?_, ?_⟩
    · simp [finishMethod, hemp, he]
    · simp [finishMethod, hemp, he]
    · intro _ hne; exact (hne he).elim
  · have hemp : (if gne then errs ++ [("Generics on the method")] else errs).isEmpty = false := by
      cases hu : (if gne then errs ++ [("Generics on the method")] else errs) with
      | nil => exact (he hu).elim
      | cons a l => rfl
    refine ⟨?_, ?_, ?_⟩
    · simp [finishMethod, hemp]
    · simp [finishMethod, hemp, he]
    · intro hpe _
      refine ⟨strJoin ((rustLines inner).map (fun l => ("// ") ++ l ++ ("\n"))) ++ ("\n"), ?_⟩
      simp [finishMethod, hemp, hpe, String.append_assoc]

/-- Claim C3 (amended).  As long as the declared return type does not
classify to a reference, the method selector accumulates every
applicable exclusion reason without short-circuiting, exactly the
reasons the spec lists (all parameter reasons in order, then the
return-type reasons, then the generic-method reason), a member is
included exactly when no reason accumulated, and with diagnostics
enabled an excluded member is emitted as the commented trail opened by
the joined accumulated reasons.  A return type that classifies to a
reference instead abandons the member at once: the generics rule never
runs and nothing is emitted (see the counterexample). -/
theorem c3_amended_reasons_accumulate (w : WrappedItem) (cfg : Config) (args : Args)
    (decl : FnDecl) (generics : ItemGenerics) (nm doc : String)
    (href : returnClassifiesRef cfg decl.output = false) :
    (processMethodCore w cfg args decl generics nm doc).errors =
      specMethodReasons w.wrapped_type cfg decl generics ∧
    ((processMethodCore w cfg args decl generics nm doc).included = true ↔
      specMethodReasons w.wrapped_type cfg decl generics = []) ∧
    (args.print_errors = true →
      specMethodReasons w.wrapped_type cfg decl generics ≠ [] →
      ∃ rest, (processMethodCore w cfg args decl generics nm doc).out =
        ("// Exclusion reason: ") ++
          joinSep (",") (specMethodReasons w.wrapped_type cfg decl generics) ++
          ("\n") ++ rest) := by
  have hperr := processParams_errors w.wrapped_type cfg decl.inputs.length decl.inputs 0
  have hspec : specMethodReasons w.wrapped_type cfg decl generics =
      specParamReasons w.wrapped_type cfg decl.inputs ++
        specReturnReasons w.wrapped_type cfg decl.output ++
        (if generics.params.isEmpty then [] else [("Generics on the method")]) := rfl
  cases ho : decl.output with
  | none =>
      have h := finishMethod_spec args.print_errors nm
        (doc ++ nm ++ ("(") ++
          (processParams w.wrapped_type cfg decl.inputs.length 0 decl.inputs).text ++ (")"))
        (processParams w.wrapped_type cfg decl.inputs.length 0 decl.inputs).errors
        (!generics.params.isEmpty)
        (processParams w.wrapped_type cfg decl.inputs.length 0 decl.inputs).is_global
      have hsame : (if !generics.params.isEmpty then
          (processParams w.wrapped_type cfg decl.inputs.length 0 decl.inputs).errors ++
            [("Generics on the method")]
        else (processParams w.wrapped_type cfg decl.inputs.length 0 decl.inputs).errors) =
          specMethodReasons w.wrapped_type cfg decl generics := by
        rw [hspec, hperr, ho]
        cases hg : generics.params.isEmpty <;> simp [specReturnReasons]
      rw [hsame] at h
      simpa [processMethodCore, ho] using h
  | some tp =>
      cases hc : classify cfg tp with
      | error e =>
          have h := finishMethod_spec args.print_errors nm
            (doc ++ nm ++ ("(") ++
              (processParams w.wrapped_type cfg decl.inputs.length 0 decl.inputs).text ++ (")"))
            ((processParams w.wrapped_type cfg decl.inputs.length 0 decl.inputs).errors ++
              [("Unsupported argument, not a simple type: ") ++ e])
            (!generics.params.isEmpty)
            (processParams w.wrapped_type cfg decl.inputs.length 0 decl.inputs).is_global
          have hsame : (if !generics.params.isEmpty then
              ((processParams w.wrapped_type cfg decl.inputs.length 0 decl.inputs).errors ++
                [("Unsupported argument, not a simple type: ") ++ e]) ++
                [("Generics on the method")]
            else
              (processParams w.wrapped_type cfg decl.inputs.length 0 decl.inputs).errors ++
                [("Unsupported argument, not a simple type: ") ++ e]) =
              specMethodReasons w.wrapped_type cfg decl generics := by
            rw [hspec, hperr, ho]
            cases hg : generics.params.isEmpty <;> simp [specReturnReasons, hc]
          rw [hsame] at h
          simpa [processMethodCore, ho, hc] using h
      | ok at_ =>
          have hnr : ∀ m i, at_ ≠ ArgType.ref m i := by
            intro m i heq
            rw [heq] at hc
            rw [ho] at href
            simp [returnClassifiesRef, hc] at href
          cases hw : ArgWrapperType.with_config w.wrapped_type at_ cfg with
          | some w2 =>
              have h := finishMethod_spec args.print_errors nm
                (doc ++ nm ++ ("(") ++
                  (processParams w.wrapped_type cfg decl.inputs.length 0 decl.inputs).text ++
                  (")") ++ (" -> ") ++ argDisplay at_ w2)
                (processParams w.wrapped_type cfg decl.inputs.length 0 decl.inputs).errors
                (!generics.params.isEmpty)
                (processParams w.wrapped_type cfg decl.inputs.length 0 decl.inputs).is_global
              have hsame : (if !generics.params.isEmpty then
                  (processParams w.wrapped_type cfg decl.inputs.length 0 decl.inputs).errors ++
                    [("Generics on the method")]
                else
                  (processParams w.wrapped_type cfg decl.inputs.length 0 decl.inputs).errors) =
                  specMethodReasons w.wrapped_type cfg decl generics := by
                rw [hspec, hperr, ho]
                cases at_ <;> try exact (hnr _ _ rfl).elim
                all_goals cases hg : generics.params.isEmpty <;>
                  simp [specReturnReasons, hc, hw]
              rw [hsame] at h
              have hred : processMethodCore w cfg args decl generics nm doc =
                  finishMethod args.print_errors nm
                    (doc ++ nm ++ ("(") ++
                      (processParams w.wrapped_type cfg decl.inputs.length 0 decl.inputs).text ++
                      (")") ++ (" -> ") ++ argDisplay at_ w2)
                    (processParams w.wrapped_type cfg decl.inputs.length 0 decl.inputs).errors
                    (!generics.params.isEmpty)
                    (processParams w.wrapped_type cfg decl.inputs.length 0 decl.inputs).is_global := by
                cases at_ <;> try exact (hnr _ _ rfl).elim
                all_goals simp [processMethodCore, ho, hc, hw]
              rw [hred]
              exact h
          | none =>
              have h := finishMethod_spec args.print_errors nm
                (doc ++ nm ++ ("(") ++
                  (processParams w.wrapped_type cfg decl.inputs.length 0 decl.inputs).text ++
                  (")") ++ ("<invalid: ") ++ at_.display ++ (">"))
                ((processParams w.wrapped_type cfg decl.inputs.length 0 decl.inputs).errors ++
                  [("Unsupported argument, not a wrapped type or primitive ") ++ at_.display])
                (!generics.params.isEmpty)
                (processParams w.wrapped_type cfg decl.inputs.length 0 decl.inputs).is_global
              have hsame : (if !generics.params.isEmpty then
                  ((processParams w.wrapped_type cfg decl.inputs.length 0 decl.inputs).errors ++
                    [("Unsupported argument, not a wrapped type or primitive ") ++ at_.display]) ++
                    [("Generics on the method")]
                else
                  (processParams w.wrapped_type cfg decl.inputs.length 0 decl.inputs).errors ++
                    [("Unsupported argument, not a wrapped type or primitive ") ++ at_.display]) =
                  specMethodReasons w.wrapped_type cfg decl generics := by
                rw [hspec, hperr, ho]
                cases at_ <;> try exact (hnr _ _ rfl).elim
                all_goals cases hg : generics.params.isEmpty <;>
                  simp [specReturnReasons, hc, hw]
              rw [hsame] at h
              have hred : processMethodCore w cfg args decl generics nm doc =
                  finishMethod args.print_errors nm
                    (doc ++ nm ++ ("(") ++
                      (processParams w.wrapped_type cfg decl.inputs.length 0 decl.inputs).text ++
                      (")") ++ ("<invalid: ") ++ at_.display ++ (">"))
                    ((processParams w.wrapped_type cfg decl.inputs.length 0 decl.inputs).errors ++
                      [("Unsupported argument, not a wrapped type or primitive ") ++ at_.display])
                    (!generics.params.isEmpty)
                    (processParams w.wrapped_type cfg decl.inputs.length 0 decl.inputs).is_global := by
                cases at_ <;> try exact (hnr _ _ rfl).elim
                all_goals simp [processMethodCore, ho, hc, hw]
              rw [hred]
              exact h

/-- Claim C3 (counterexample).  A candidate method with both a generic
parameter and a reference return type: the claim requires every
applicable reason (here both the reference-return reason and the
generic-method reason) to be accumulated and, with diagnostics
enabled, a commented trail carrying all of them to be emitted.  The
source instead leaves the member as soon as the return type
classifies to a reference: only the reference reason was accumulated,
and nothing at all is emitted even though diagnostics are enabled. -/
theorem c3_counterexample_ref_return_short_circuit :
    processMethod wFoo cfgFoo argsOn implFooData itemRefGen =
      some { out := "", errors := [("references are not supported as return types")],
             included := false, is_global := false, name := "r" } ∧
    specMethodReasons ("Foo") cfgFoo
      ⟨[(("self"), RType.selfTy)], some (RType.borrowedRef false (RType.named ("f32")))⟩
      ⟨[("T")]⟩ =
      [("references are not supported as return types"), ("Generics on the method")] ∧
    argsOn.print_errors = true := by
  decide

/-- Witness for c3_amended_reasons_accumulate at the concrete excluded
method bar(x: Unk) of the fixture: the accumulated reasons equal the
spec-side reasons and the emitted text opens with the joined trail. -/
theorem c3_amended_reasons_accumulate_witness :
    (processMethodCore wFoo cfgFoo argsOn ⟨[(("x"), RType.named ("Unk"))], none⟩ ⟨[]⟩
        ("bar") "").errors =
      specMethodReasons ("Foo") cfgFoo ⟨[(("x"), RType.named ("Unk"))], none⟩ ⟨[]⟩ ∧
    ∃ rest, (processMethodCore wFoo cfgFoo argsOn ⟨[(("x"), RType.named ("Unk"))], none⟩ ⟨[]⟩
        ("bar") "").out =
      ("// Exclusion reason: ") ++
        joinSep (",") (specMethodReasons ("Foo") cfgFoo
          ⟨[(("x"), RType.named ("Unk"))], none⟩ ⟨[]⟩) ++ ("\n") ++ rest := by
  have h := c3_amended_reasons_accumulate wFoo cfgFoo argsOn
    ⟨[(("x"), RType.named ("Unk"))], none⟩ ⟨[]⟩ ("bar") "" (by decide)
  exact ⟨h.1, h.2.2 (by decide) (by decide)⟩

theorem finishMethod_is_global (pe : Bool) (nm inner : String) (errs : List String)
    (gne : Bool) (ig : Bool) : (finishMethod pe nm inner errs gne ig).is_global = ig := by
  unfold finishMethod
  dsimp only
  split <;> split <;> rfl

theorem processMethodCore_is_global (w : WrappedItem) (cfg : Config) (args : Args)
    (decl : FnDecl) (generics : ItemGenerics) (nm doc : String) :
    (processMethodCore w cfg args decl generics nm doc).is_global =
      specIsGlobal w.wrapped_type cfg decl.inputs := by
  have hg := processParams_global w.wrapped_type cfg decl.inputs.length decl.inputs 0
  cases ho : decl.output with
  | none => simp [processMethodCore, ho, finishMethod_is_global, hg]
  | some tp =>
      cases hc : classify cfg tp with
      | error e => simp [processMethodCore, ho, hc, finishMethod_is_global, hg]
      | ok at_ =>
          cases at_ with
          | ref m i => simp [processMethodCore, ho, hc, hg]
          | selfType =>
              cases hw : ArgWrapperType.with_config w.wrapped_type ArgType.selfType cfg <;>
                simp [processMethodCore, ho, hc, hw, finishMethod_is_global, hg]
          | primitive n =>
              cases hw : ArgWrapperType.with_config w.wrapped_type (ArgType.primitive n) cfg <;>
                simp [processMethodCore, ho, hc, hw, finishMethod_is_global, hg]
          | wrapped n =>
              cases hw : ArgWrapperType.with_config w.wrapped_type (ArgType.wrapped n) cfg <;>
                simp [processMethodCore, ho, hc, hw, finishMethod_is_global, hg]
          | generic n =>
              cases hw : ArgWrapperType.with_config w.wrapped_type (ArgType.generic n) cfg <;>
                simp [processMethodCore, ho, hc, hw, finishMethod_is_global, hg]
          | unsupported n =>
              cases hw : ArgWrapperType.with_config w.wrapped_type (ArgType.unsupported n) cfg <;>
                simp [processMethodCore, ho, hc, hw, finishMethod_is_global, hg]

theorem processMethod_none_candGlobal (w : WrappedItem) (cfg : Config) (args : Args)
    (impl_ : ImplData) (v : Item)
    (h : processMethod w cfg args impl_ v = none) :
    candGlobal w cfg (impl_, v) = false := by
  unfold processMethod at h
  unfold candGlobal isCandidate
  cases ht : impl_.trait_ with
  | none =>
      rw [ht] at h
      dsimp only at h
      simp only [Bool.not_true, Bool.false_eq_true, if_false] at h
      cases hv : v.inner <;> rw [hv] at h <;> simp_all
  | some t =>
      rw [ht] at h
      dsimp only at h
      cases ha : w.config.traits.any (fun f => f.name == t) with
      | false => simp [ha]
      | true =>
          rw [ha] at h
          simp only [Bool.not_true, Bool.false_eq_true, if_false] at h
          cases hv : v.inner <;> rw [hv] at h <;> simp_all

theorem processMethod_some_candGlobal (w : WrappedItem) (cfg : Config) (args : Args)
    (impl_ : ImplData) (v : Item) (m : MethodOutcome)
    (h : processMethod w cfg args impl_ v = some m) :
    candGlobal w cfg (impl_, v) = m.is_global := by
  unfold processMethod at h
  unfold candGlobal isCandidate
  cases ht : impl_.trait_ with
  | none =>
      rw [ht] at h
      dsimp only at h
      simp only [Bool.not_true, Bool.false_eq_true, if_false] at h
      cases hv : v.inner <;> rw [hv] at h <;> cases h
      simp [hv, processMethodCore_is_global]
  | some t =>
      rw [ht] at h
      dsimp only at h
      cases ha : w.config.traits.any (fun f => f.name == t) with
      | false =>
          rw [ha] at h
          simp at h
      | true =>
          rw [ha] at h
          simp only [Bool.not_true, Bool.false_eq_true, if_false] at h
          cases hv : v.inner <;> rw [hv] at h <;> cases h
          simp [ha, hv, processMethodCore_is_global]

theorem methodsFold_hasGlobal_aux (w : WrappedItem) (cfg : Config) (args : Args) :
    ∀ (l : List (ImplData × Item)) (acc : MethodsOut),
      (l.foldl
        (fun acc pr =>
          match processMethod w cfg args pr.1 pr.2 with
          | some m =>
              { text := acc.text ++ m.out
                used := if m.included then insertSet acc.used m.name else acc.used
                hasGlobal := acc.hasGlobal || m.is_global }
          | none => acc)
        acc).hasGlobal =
      (acc.hasGlobal || l.any (candGlobal w cfg)) := by
  intro l
  induction l with
  | nil => intro acc; simp
  | cons pr rest ih =>
      intro acc
      simp only [List.foldl_cons, List.any_cons]
      cases hpm : processMethod w cfg args pr.1 pr.2 with
      | none =>
          have hc := processMethod_none_candGlobal w cfg args pr.1 pr.2 hpm
          rw [ih acc]
          simp [hc]
      | some m =>
          have hc := processMethod_some_candGlobal w cfg args pr.1 pr.2 m hpm
          rw [ih]
          simp only []
          rw [← hc]
          simp [Bool.or_assoc]

/-- Claim C4 (amended).  The has-global-methods flag recorded by the
Methods pass is true exactly when some candidate member (a function
passing the interface allow-list) has no parameter that is named self,
classifies, and finds a wrapper strategy; inclusion plays no role, so
an excluded receiver-less method also raises the flag and hence also
produces the global-instance registration entry (see the
counterexample). -/
theorem c4_amended_global_flag_counts_candidates (w : WrappedItem) (cfg : Config)
    (args : Args) :
    (methodsFold w cfg args).hasGlobal = (methodPairs w).any (candGlobal w cfg) := by
  unfold methodsFold
  rw [methodsFold_hasGlobal_aux w cfg args (methodPairs w) ⟨"", [], false⟩]
  simp

/-- Claim C4 (counterexample).  In the fixture, the only included
method of Foo takes a receiver and the only receiver-less method bar
is excluded for an unwrappable parameter.  The claim requires the
has-global-methods flag to be false and no global-instance
registration entry to exist; the source sets the flag from candidates
regardless of exclusion, so the flag is true and the registration
entry for Foo is emitted. -/
theorem c4_counterexample_excluded_method_sets_global_flag :
    (methodsFold wFoo cfgFoo argsOn).hasGlobal = true ∧
    claimedHasGlobal wFoo cfgFoo argsOn = false ∧
    globalsEntries
      [{ wFoo with has_global_methods := (methodsFold wFoo cfgFoo argsOn).hasGlobal }]
      cfgFoo = [(("Foo"), ("LuaFoo"), false)] := by
  decide

/-- Claim C5 (amended).  A visible field of a plain record splits in
two on failure: when its type fails classification the field is
silently omitted from the Fields block; only when the type classifies
but the wrapper resolution falls back to the None strategy (and the
ignore annotation is absent) is the field kept with the fixed opaque
reflected-value placeholder in place of a structural type. -/
theorem c5_amended_field_fallback (w : WrappedItem) (cfg : Config) (used : List String)
    (field_ : Item) (type_ : RType)
    (hf : field_.inner = ItemInner.structField type_) :
    (∀ e, classify cfg type_ = Except.error e → fieldEntry w cfg used field_ = none) ∧
    (∀ at_, classify cfg type_ = Except.ok at_ →
      fieldWrapper w cfg at_ = ArgWrapperType.noneW →
      field_.attrs.any (fun attr => attr == ("#[reflect(ignore)]")) = false →
      fieldEntry w cfg used field_ =
        some (strJoin ((rustLines (field_.docs.getD "")).map (fun l => ("/// ") ++ l ++ ("\n"))) ++
          (if used.contains (field_.name.getD "") then
            ("#[rename(\"_") ++ (field_.name.getD "") ++ ("\")]\n")
          else "") ++
          (field_.name.getD "") ++ (": ") ++ ("Raw(ReflectedValue)") ++ (",\n"))) := by
  constructor
  · intro e he
    simp [fieldEntry, hf, he]
  · intro at_ hc hw hign
    simp [fieldEntry, hf, hc, hw, hign]

/-- Claim C5 (counterexample).  The field w of the fixture has a tuple
type: classification fails, the field does not carry the ignore
annotation, and the claim demands a placeholder entry; the source
omits the field entirely. -/
theorem c5_counterexample_classification_failure_omits_field :
    classify cfgFoo (RType.complex ("tuple")) =
      Except.error ("Not a simple type: tuple") ∧
    fieldItemW.attrs.any (fun attr => attr == ("#[reflect(ignore)]")) = false ∧
    fieldEntry wFoo cfgFoo [] fieldItemW = none := by
  decide

/-- Witness for c5_amended_field_fallback: the field z of the fixture
classifies to an unwrappable type and is kept with the opaque
placeholder. -/
theorem c5_amended_field_fallback_witness :
    fieldEntry wFoo cfgFoo [] fieldItemZ = some ("z: Raw(ReflectedValue),\n") := by
  have h := (c5_amended_field_fallback wFoo cfgFoo [] fieldItemZ (RType.named ("Unk")) rfl).2
    (ArgType.unsupported ("Unk")) (by decide) (by decide) (by decide)
  exact h.trans (by decide)

/-- Claim C6 (amended).  A field whose name was already used by an
included method is emitted, whenever it is emitted at all, with the
rename annotation carrying the underscore-prefixed name while the
field itself keeps its plain name; the claim had the two names
swapped. -/
theorem c6_amended_rename_annotation_shape (w : WrappedItem) (cfg : Config)
    (used : List String) (field_ : Item) (type_ : RType) (nm out : String)
    (hf : field_.inner = ItemInner.structField type_)
    (hn : field_.name = some nm)
    (hu : used.contains nm = true)
    (hout : fieldEntry w cfg used field_ = some out) :
    ∃ docs rt, out =
      docs ++ (("#[rename(\"_") ++ nm ++ ("\")]\n")) ++ nm ++ (": ") ++ rt ++ (",\n") := by
  simp only [fieldEntry, hf] at hout
  cases hc : classify cfg type_ with
  | error e => rw [hc] at hout; cases hout
  | ok at_ =>
      rw [hc] at hout
      dsimp only at hout
      rw [hn] at hout
      simp only [Option.getD_some, hu, if_true] at hout
      by_cases hw : (fieldWrapper w cfg at_ == ArgWrapperType.noneW) = true
      · rw [if_pos hw] at hout
        by_cases hig : (field_.attrs.any fun attr => attr == ("#[reflect(ignore)]")) = true
        · rw [if_pos hig] at hout; cases hout
        · rw [if_neg hig] at hout
          cases hout
          exact ⟨_, _, rfl⟩
      · rw [if_neg hw] at hout
        cases hout
        exact ⟨_, _, rfl⟩

/-- Claim C6 (counterexample).  The field value collides with the
included method value.  The claim demands the field be emitted under
the name _value with an annotation referencing the plain name value;
the source emits the field under its plain name with an annotation
referencing _value, so neither the claimed annotation text nor the
claimed field binding occurs in the output. -/
theorem c6_counterexample_rename_refers_underscored_name :
    fieldEntry wFoo cfgFoo [("value")] fieldItemValue =
      some ("#[rename(\"_value\")]\nvalue: Raw(f32),\n") ∧
    hasInfixC (("#[rename(\"value\")]").data)
      (("#[rename(\"_value\")]\nvalue: Raw(f32),\n").data) = false ∧
    hasInfixC (("_value:").data)
      (("#[rename(\"_value\")]\nvalue: Raw(f32),\n").data) = false := by
  decide

/-- Witness for c6_amended_rename_annotation_shape at the fixture
collision. -/
theorem c6_amended_rename_annotation_shape_witness :
    ∃ docs rt, (("#[rename(\"_value\")]\nvalue: Raw(f32),\n") : String) =
      docs ++ (("#[rename(\"_") ++ ("value") ++ ("\")]\n")) ++ ("value") ++ (": ") ++ rt ++
        (",\n") := by
  exact c6_amended_rename_annotation_shape wFoo cfgFoo [("value")] fieldItemValue
    (RType.named ("f32")) ("value") ("#[rename(\"_value\")]\nvalue: Raw(f32),\n")
    rfl rfl (by decide) (by decide)

/-- Claim C7 (amended).  For a field that carries the
ignore-reflection annotation and whose type classifies, the field is
suppressed exactly when the wrapper resolution fell back to the None
strategy: the annotation is consulted only on that fallback path, and
a field with a Raw or Wrapped strategy is emitted despite the
annotation. -/
theorem c7_amended_ignore_checked_only_in_fallback (w : WrappedItem) (cfg : Config)
    (used : List String) (field_ : Item) (type_ : RType) (at_ : ArgType)
    (hf : field_.inner = ItemInner.structField type_)
    (hc : classify cfg type_ = Except.ok at_)
    (hig : field_.attrs.any (fun attr => attr == ("#[reflect(ignore)]")) = true) :
    (fieldEntry w cfg used field_ = none ↔
      fieldWrapper w cfg at_ = ArgWrapperType.noneW) := by
  simp only [fieldEntry, hf, hc, hig]
  by_cases hw : fieldWrapper w cfg at_ = ArgWrapperType.noneW
  · simp [hw]
  · have hbw : (fieldWrapper w cfg at_ == ArgWrapperType.noneW) = false := by
      simp [hw]
    simp [hbw, hw]

/-- Claim C7 (counterexample).  The field x of the fixture carries the
ignore-reflection annotation and its type f32 is a configured
primitive; the claim demands it never be emitted, yet the source
emits it, because the annotation is only consulted on the None
fallback path. -/
theorem c7_counterexample_ignored_field_still_emitted :
    fieldItemX.attrs = [("#[reflect(ignore)]")] ∧
    fieldEntry wFoo cfgFoo [] fieldItemX = some ("x: Raw(f32),\n") := by
  decide

/-- Witness for c7_amended_ignore_checked_only_in_fallback: the
annotated field y of the fixture has an unwrappable type and is
suppressed. -/
theorem c7_amended_ignore_witness :
    fieldEntry wFoo cfgFoo [] fieldItemY = none := by
  have h := c7_amended_ignore_checked_only_in_fallback wFoo cfgFoo [] fieldItemY
    (RType.named ("Unk")) (ArgType.unsupported ("Unk")) rfl (by decide) (by decide)
  exact h.mpr (by decide)

/-- Claim C8 (amended).  For an accepted binary-operator
implementation, a classification failure of a parameter, a missing
Output associated item, and a classification failure of the declared
output each abort emission of that single implementation silently
(ok none, leaving the rest of the block untouched); but a parameter or
output that classifies while no wrapper strategy exists is the unwrap
panic of the source, a process abort carried on the error channel, not
a silent drop as the claim states. -/
theorem c8_amended_silent_and_panic_paths (w : WrappedItem) (cfg : Config) (rep : String)
    (impl_ : ImplData) (item : Item) (decl : FnDecl) (g : ItemGenerics)
    (hi : item.inner = ItemInner.function decl g) :
    (∀ e, binopArgs w cfg decl.inputs = Except.ok (Except.error e) →
      processBinOpImpl w cfg rep impl_ item = Except.ok none) ∧
    (∀ ss, binopArgs w cfg decl.inputs = Except.ok (Except.ok ss) →
      findOutputAssoc w.index impl_.items = Except.ok none →
      processBinOpImpl w cfg rep impl_ item = Except.ok none) ∧
    (∀ ss out_type e2, binopArgs w cfg decl.inputs = Except.ok (Except.ok ss) →
      findOutputAssoc w.index impl_.items = Except.ok (some out_type) →
      classify cfg out_type = Except.error e2 →
      processBinOpImpl w cfg rep impl_ item = Except.ok none) ∧
    (∀ gmsg, binopArgs w cfg decl.inputs = Except.error gmsg →
      processBinOpImpl w cfg rep impl_ item = Except.error gmsg) := by
  refine ⟨?_, ?_, ?_, ?_⟩
  · intro e ha
    simp [processBinOpImpl, hi, ha]
  · intro ss ha ho
    simp [processBinOpImpl, hi, ha, ho]
  · intro ss out_type e2 ha hount hc
    simp [processBinOpImpl, hi, ha, hount, hc]
  · intro gmsg ha
    simp [processBinOpImpl, hi, ha]

/-- Witness for c8_amended_silent_and_panic_paths: an Add
implementation of the fixture whose operand list classifies and wraps,
with no Output associated item, is dropped silently. -/
theorem c8_amended_silent_witness :
    processBinOpImpl
      { wAdd with impl_items := [] } cfgFoo ("Add")
      { trait_ := some ("Add"), for_ := RType.named ("Foo"), items := [] }
      { id := 11, name := some ("add"), docs := none, attrs := [],
        inner := ItemInner.function ⟨[(("self"), RType.selfTy)], none⟩ ⟨[]⟩ } =
      Except.ok none := by
  have h := (c8_amended_silent_and_panic_paths
    { wAdd with impl_items := [] } cfgFoo ("Add")
    { trait_ := some ("Add"), for_ := RType.named ("Foo"), items := [] }
    { id := 11, name := some ("add"), docs := none, attrs := [],
      inner := ItemInner.function ⟨[(("self"), RType.selfTy)], none⟩ ⟨[]⟩ }
    ⟨[(("self"), RType.selfTy)], none⟩ ⟨[]⟩ rfl).2.1
  exact h [("self")] (by decide) (by decide)

/-- Claim C8 (counterexample).  The fixture Add implementation for Foo
has the right-hand operand Weird: it classifies (to an unresolved
named type) but no wrapper strategy exists, and the source panics on
the unwrap instead of dropping the implementation silently, so the
whole BinOps pass aborts. -/
theorem c8_counterexample_wrapper_gap_panics :
    classify cfgFoo (RType.named ("Weird")) = Except.ok (ArgType.unsupported ("Weird")) ∧
    ArgWrapperType.with_config ("Foo") (ArgType.unsupported ("Weird")) cfgFoo = none ∧
    binOpsSection wAdd cfgFoo =
      Except.error (GenError.panicMsg
        ("no wrapper strategy for a binary operator parameter (unwrap on None)")) := by
  decide

theorem countInfixC_skip (c0 : Char) (pt : List Char) :
    ∀ seg : List Char, c0 ∉ seg →
      ∀ cs, countInfixC (c0 :: pt) (seg ++ cs) = countInfixC (c0 :: pt) cs := by
  intro seg
  induction seg with
  | nil => intro _ cs; rfl
  | cons c s ih =>
      intro hmem cs
      have hcc : (c0 == c) = false := by
        have : c0 ≠ c := fun h => hmem (h ▸ List.mem_cons_self c s)
        simp [this]
      have hpre : (c0 :: pt).isPrefixOf (c :: (s ++ cs)) = false := by
        simp [List.isPrefixOf, hcc]
      calc countInfixC (c0 :: pt) ((c :: s) ++ cs)
          = (if (c0 :: pt).isPrefixOf (c :: (s ++ cs)) then 1 else 0) +
              countInfixC (c0 :: pt) (s ++ cs) := rfl
        _ = countInfixC (c0 :: pt) (s ++ cs) := by simp [hpre]
        _ = countInfixC (c0 :: pt) cs := ih (fun h => hmem (List.mem_cons_of_mem c h)) cs

theorem countInfixC_at (c0 : Char) (pt cs : List Char) :
    countInfixC (c0 :: pt) ((c0 :: pt) ++ cs) =
      1 + countInfixC (c0 :: pt) (pt ++ cs) := by
  have hpre : (c0 :: pt).isPrefixOf (c0 :: (pt ++ cs)) = true := by
    rw [← List.cons_append]
    exact List.isPrefixOf_iff_prefix.mpr (List.prefix_append _ _)
  calc countInfixC (c0 :: pt) ((c0 :: pt) ++ cs)
      = (if (c0 :: pt).isPrefixOf (c0 :: (pt ++ cs)) then 1 else 0) +
          countInfixC (c0 :: pt) (pt ++ cs) := rfl
    _ = 1 + countInfixC (c0 :: pt) (pt ++ cs) := by simp [hpre]

theorem countInfixC_block_head (rest : List Char) :
    countInfixC onFeatureLine.data
      ((("impl_script_newtype!").data ++ ("\x7b").data ++ onFeatureLine.data ++
        ("\n").data ++ onFeatureLine.data ++ ("\n").data) ++ rest) =
      2 + countInfixC onFeatureLine.data rest := by
  have hdata : onFeatureLine.data = '#' :: ("[languages(on_feature(lua))]").data := by decide
  rw [hdata]
  simp only [List.append_assoc]
  rw [countInfixC_skip '#' (("[languages(on_feature(lua))]").data)
    (("impl_script_newtype!").data) (by decide)]
  rw [countInfixC_skip '#' (("[languages(on_feature(lua))]").data)
    (("\x7b").data) (by decide)]
  rw [countInfixC_at]
  rw [countInfixC_skip '#' (("[languages(on_feature(lua))]").data)
    (("[languages(on_feature(lua))]").data) (by decide)]
  rw [countInfixC_skip '#' (("[languages(on_feature(lua))]").data)
    (("\n").data) (by decide)]
  rw [countInfixC_at]
  rw [countInfixC_skip '#' (("[languages(on_feature(lua))]").data)
    (("[languages(on_feature(lua))]").data) (by decide)]
  rw [countInfixC_skip '#' (("[languages(on_feature(lua))]").data)
    (("\n").data) (by decide)]
  show 1 + (1 + countInfixC onFeatureLine.data rest) = 2 + countInfixC onFeatureLine.data rest
  omega

/-- Claim C10 (confirmed).  Every emitted per-type descriptor block
opens with the macro head followed by the language-feature marker
written by the helper and then the same literal written again, on two
consecutive marker-terminated lines placed immediately before the rest
of the block, which begins with the type docstring (macroRest starts
with write_type_docstring); and when the marker occurs nowhere in that
rest, the block text contains exactly two occurrences of the marker. -/
theorem c10_marker_written_twice_before_docstring (w : WrappedItem) (cfg : Config)
    (args : Args) (body : String) (g : Bool)
    (hb : write_derive_flags_body w cfg args = Except.ok (body, g))
    (hclean : countInfixC onFeatureLine.data (macroRest w body).data = 0) :
    macroBlockText w cfg args =
      Except.ok ((("impl_script_newtype!") ++ ("\x7b") ++ onFeatureLine ++ ("\n") ++
        onFeatureLine ++ ("\n") ++ macroRest w body), g) ∧
    countInfixC onFeatureLine.data
      ((("impl_script_newtype!") ++ ("\x7b") ++ onFeatureLine ++ ("\n") ++
        onFeatureLine ++ ("\n") ++ macroRest w body)).data = 2 := by
  constructor
  · simp [macroBlockText, hb]
  · have hd : ((("impl_script_newtype!") ++ ("\x7b") ++ onFeatureLine ++ ("\n") ++
        onFeatureLine ++ ("\n") ++ macroRest w body)).data =
        ((("impl_script_newtype!").data ++ ("\x7b").data ++ onFeatureLine.data ++
          ("\n").data ++ onFeatureLine.data ++ ("\n").data) ++ (macroRest w body).data) := rfl
    rw [hd, countInfixC_block_head, hclean]

set_option maxRecDepth 8192 in
/-- Witness for c10_marker_written_twice_before_docstring at the
fixture type Foo with diagnostics disabled. -/
theorem c10_marker_written_twice_witness :
    countInfixC onFeatureLine.data
      ((("impl_script_newtype!") ++ ("\x7b") ++ onFeatureLine ++ ("\n") ++
        onFeatureLine ++ ("\n") ++
        macroRest wFoo
          ("Methods\n(value(self:) -> Raw(f32),\n)+ Fields\n(#[rename(\"_value\")]\nvalue: Raw(f32),\nx: Raw(f32),\nz: Raw(ReflectedValue),\n)+ BinOps\n()+ UnaryOps\n()"))).data = 2 := by
  exact (c10_marker_written_twice_before_docstring wFoo cfgFoo argsOff
    ("Methods\n(value(self:) -> Raw(f32),\n)+ Fields\n(#[rename(\"_value\")]\nvalue: Raw(f32),\nx: Raw(f32),\nz: Raw(ReflectedValue),\n)+ BinOps\n()+ UnaryOps\n()")
    true (by decide) (by decide)).2
